import Mathlib

/-!
# nginx-kubernetes-gateway: configuration generator

A shallow embedding of `internal/nginx/config/generator.go` together with the
properties its specification states about it.

Conventions of the embedding

* Go strings are Lean `String`s (sequences of Unicode scalar values); every
  delimiter the program uses is ASCII, so splitting by character and splitting
  by byte agree.
* A Go pointer field (`*T`) is an `Option T`; `none` is the nil pointer.
* A Go slice whose nil-ness the program inspects is an `Option (List T)`;
  `none` is the nil slice, `some []` an empty non-nil slice.  Slices that are
  only measured with `len` or ranged over are plain `List`s.
* A Go `(value, error)` result is a pair whose second component is an
  `Option GoError`; `none` is the nil error.
* A run-time panic (index out of range, nil dereference) is the `none` of an
  `Option` result.
-/

namespace Config

/-! ## Errors -/

/-- A Go `error` value: its message, and the error it wraps when it was built
with the `%w` verb of `fmt.Errorf`. -/
inductive GoError where
  | plain (text : String)
  | wrapping (text : String) (cause : GoError)
  deriving DecidableEq, Repr

/-- The method `Error()` of an error value. -/
def GoError.Error : GoError → String
  | .plain text => text
  | .wrapping text _ => text

/-- The result of `errors.Unwrap`. -/
def GoError.Unwrap : GoError → Option GoError
  | .plain _ => none
  | .wrapping _ cause => some cause

/-! ## Formatting verbs -/

/-- Decimal digits of `n`, least significant first; `fuel` bounds the number of
digits produced. -/
def decimalDigitsRev : Nat → Nat → List Char
  | 0, _ => []
  | fuel + 1, n =>
    Nat.digitChar (n % 10) :: (if n / 10 = 0 then [] else decimalDigitsRev fuel (n / 10))

/-- The verb `%d` of package `fmt` applied to a non-negative integer. -/
def fmtNat (n : Nat) : String :=
  String.mk (decimalDigitsRev (n + 1) n).reverse

/-- The verb `%d` of package `fmt` applied to a signed integer. -/
def fmtInt : Int → String
  | Int.ofNat n => fmtNat n
  | Int.negSucc n => "-" ++ fmtNat (n + 1)

/-! ## Gateway API objects (the fields the generator reads) -/

/-- Type `v1alpha2.BackendRef` (with its embedded `BackendObjectReference`). -/
structure BackendRef where
  Kind : Option String
  Name : String
  Namespace : Option String
  Port : Option Int
  deriving DecidableEq, Repr

/-- Type `v1alpha2.HTTPBackendRef`. -/
structure HTTPBackendRef where
  BackendRef : BackendRef
  deriving DecidableEq, Repr

/-- Constant `v1alpha2.HeaderMatchExact`. -/
def HeaderMatchExact : String := "Exact"

/-- Constant `v1alpha2.QueryParamMatchExact`. -/
def QueryParamMatchExact : String := "Exact"

/-- Type `v1alpha2.HTTPHeaderMatch`; `Typ` is its pointer field `Type`. -/
structure HTTPHeaderMatch where
  Typ : Option String
  Name : String
  Value : String
  deriving DecidableEq, Repr

/-- Type `v1alpha2.HTTPQueryParamMatch`; `Typ` is its pointer field `Type`. -/
structure HTTPQueryParamMatch where
  Typ : Option String
  Name : String
  Value : String
  deriving DecidableEq, Repr

/-- Type `v1alpha2.HTTPRouteMatch`.  `Headers` and `QueryParams` are slices that
the generator compares with nil. -/
structure HTTPRouteMatch where
  Path : Option String
  Headers : Option (List HTTPHeaderMatch)
  QueryParams : Option (List HTTPQueryParamMatch)
  Method : Option String
  deriving DecidableEq, Repr

/-- Type `v1alpha2.HTTPRouteRule`. -/
structure HTTPRouteRule where
  BackendRefs : List HTTPBackendRef
  deriving DecidableEq, Repr

/-- Type `v1alpha2.HTTPRouteSpec`. -/
structure HTTPRouteSpec where
  Rules : List HTTPRouteRule
  deriving DecidableEq, Repr

/-- Type `v1alpha2.HTTPRoute`: the object metadata that identifies the route and
its spec. -/
structure HTTPRoute where
  Namespace : String
  Name : String
  Spec : HTTPRouteSpec
  deriving DecidableEq, Repr

/-- Type `types.NamespacedName`. -/
structure NamespacedName where
  Namespace : String
  Name : String
  deriving DecidableEq, Repr

/-! ## Collaborators of the generator -/

/-- Interface `state.ServiceStore`: `Resolve` returns the address of a service,
or an error (the address that accompanies a non-nil error is never read). -/
structure ServiceStore where
  Resolve : NamespacedName → Except GoError String

/-- Modelled from the spec: the route view `state.Route` (package `state` is not
among the sources).  The spec gives it as `RouteView{Source, RuleIdx,
Match-accessor}`; the match the accessor returns is the field `Match`. -/
structure Route where
  Source : HTTPRoute
  RuleIdx : Int
  Match : HTTPRouteMatch
  deriving DecidableEq, Repr

/-- Modelled from the spec: the match accessor `GetMatch` of a route view. -/
def Route.GetMatch (r : Route) : HTTPRouteMatch := r.Match

/-- Modelled from the spec: `state.PathRouteGroup`, a path with its ordered
routes. -/
structure PathRouteGroup where
  Path : String
  Routes : List Route
  deriving DecidableEq, Repr

/-- Modelled from the spec: `state.Host`, a host name with its ordered path
groups. -/
structure Host where
  Value : String
  PathRouteGroups : List PathRouteGroup
  deriving DecidableEq, Repr

/-- Modelled from the spec: the `Warnings` collection (`warnings.go` is not among
the sources), a mapping from a source object to the list of messages recorded
for it.  It is kept as the log of recorded pairs, oldest first. -/
abbrev Warnings := List (HTTPRoute × String)

/-- Modelled from the spec: the empty warnings collection. -/
def newWarnings : Warnings := []

/-- Modelled from the spec: `AddWarning` appends a message to the list of the
given object. -/
def Warnings.AddWarning (w : Warnings) (obj : HTTPRoute) (msg : String) : Warnings :=
  w ++ [(obj, msg)]

/-- Modelled from the spec: the messages recorded for an object, oldest first
(the value `w[obj]` of the mapping). -/
def Warnings.forObject (w : Warnings) (obj : HTTPRoute) : List String :=
  (w.filter (fun e => decide (e.1 = obj))).map Prod.snd

/-- Modelled from the spec: a location block of the server configuration, with
the fields `Path`, `ProxyPass`, `HTTPMatchVar` and `Internal`. -/
structure location where
  Path : String
  ProxyPass : String
  HTTPMatchVar : String
  Internal : Bool
  deriving DecidableEq, Repr

/-- Modelled from the spec: the server configuration, `ServerName` and ordered
`Locations`. -/
structure server where
  ServerName : String
  Locations : List location
  deriving DecidableEq, Repr

/-- Indexing `xs[i]` of a Go slice; `none` is the index-out-of-range panic. -/
def goIndex {α : Type} (xs : List α) (i : Int) : Option α :=
  if i < 0 then none else xs.get? i.toNat

/-! ## The generator -/

/-- Constant `nginx502Server`. -/
def nginx502Server : String := "unix:/var/lib/nginx/nginx-502-server.sock"

/-- Function `generateProxyPass`. -/
def generateProxyPass (address : String) : String :=
  if address = "" then "http://" ++ nginx502Server else "http://" ++ address

/-- Function `getBackendAddress`. -/
def getBackendAddress (refs : List HTTPBackendRef) (parentNS : String)
    (serviceStore : ServiceStore) : String × Option GoError :=
  match refs with
  | [] => ("", some (.plain "empty backend refs"))
  | first :: _ =>
    let ref := first.BackendRef
    -- `ref.Kind != nil && *ref.Kind != "Service"`: the kind that is rejected, if any
    match (match ref.Kind with
           | some kind => if kind ≠ "Service" then some kind else none
           | none => none) with
    | some kind => ("", some (.plain ("unsupported kind " ++ kind)))
    | none =>
      let ns := match ref.Namespace with
        | some n => n
        | none => parentNS
      match serviceStore.Resolve { Namespace := ns, Name := ref.Name } with
      | .error err =>
        ("", some (.wrapping
          ("service " ++ ns ++ "/" ++ ref.Name ++ " cannot be resolved: " ++ err.Error) err))
      | .ok address =>
        match ref.Port with
        | none => ("", some (.plain "port is nil"))
        | some port => (address ++ ":" ++ fmtInt port, none)

/-- Function `generateMatchLocation`. -/
def generateMatchLocation (path address : String) : location :=
  { Path := path, ProxyPass := generateProxyPass address, HTTPMatchVar := "", Internal := true }

/-- Function `createPathForMatch`. -/
def createPathForMatch (path : String) (routeIdx : Nat) : String :=
  path ++ "_route" ++ fmtNat routeIdx

/-- Type `httpMatch`.  `Headers` and `QueryParams` are nil (`none`) until the
encoder assigns them. -/
structure httpMatch where
  Any : Bool
  Method : String
  Headers : Option (List String)
  QueryParams : Option (List String)
  RedirectPath : String
  deriving DecidableEq, Repr

/-- Function `createQueryParamKeyValString`. -/
def createQueryParamKeyValString (p : HTTPQueryParamMatch) : String :=
  p.Name ++ "=" ++ p.Value

/-- Function `createHeaderKeyValString`. -/
def createHeaderKeyValString (h : HTTPHeaderMatch) : String :=
  h.Name ++ ":" ++ h.Value

/-- Function `isPathOnlyMatch`. -/
def isPathOnlyMatch (m : HTTPRouteMatch) : Bool :=
  m.Method.isNone && m.Headers.isNone && m.QueryParams.isNone

/-- The loop over `match.Headers` in `createHTTPMatch`; dereferencing a nil
`Type` panics. -/
def collectHeaders : List HTTPHeaderMatch → List String → Option (List String)
  | [], headers => some headers
  | h :: rest, headers =>
    match h.Typ with
    | none => none
    | some t =>
      collectHeaders rest
        (if t = HeaderMatchExact then headers ++ [createHeaderKeyValString h] else headers)

/-- The loop over `match.QueryParams` in `createHTTPMatch`; dereferencing a nil
`Type` panics. -/
def collectParams : List HTTPQueryParamMatch → List String → Option (List String)
  | [], params => some params
  | p :: rest, params =>
    match p.Typ with
    | none => none
    | some t =>
      collectParams rest
        (if t = QueryParamMatchExact then params ++ [createQueryParamKeyValString p] else params)

/-- Function `createHTTPMatch`. -/
def createHTTPMatch (m : HTTPRouteMatch) (redirectPath : String) : Option httpMatch :=
  let hm : httpMatch :=
    { Any := false, Method := "", Headers := none, QueryParams := none,
      RedirectPath := redirectPath }
  if isPathOnlyMatch m then
    some { hm with Any := true }
  else
    let hm := match m.Method with
      | some method => { hm with Method := method }
      | none => hm
    let withHeaders : Option httpMatch := match m.Headers with
      | some hs => (collectHeaders hs []).map (fun headers => { hm with Headers := some headers })
      | none => some hm
    withHeaders.bind (fun hm =>
      match m.QueryParams with
      | some ps => (collectParams ps []).map (fun params => { hm with QueryParams := some params })
      | none => some hm)

/-! ## Serialising the match list (`json.Marshal`) -/

/-- A hexadecimal digit, lower case, as `encoding/json` writes it. -/
def hexDigit (n : Nat) : Char :=
  if n < 10 then Char.ofNat (48 + n) else Char.ofNat (87 + n)

/-- The escape `\u00XX` of a character below 256. -/
def jsonUnicodeEscape (c : Char) : List Char :=
  ['\\', 'u', '0', '0', hexDigit (c.toNat / 16), hexDigit (c.toNat % 16)]

/-- One character of a JSON string as `encoding/json` writes it with HTML
escaping on (the setting of `json.Marshal`). -/
def jsonEscapeChar (c : Char) : List Char :=
  if c = '\\' ∨ c = '"' then ['\\', c]
  else if c = '\n' then ['\\', 'n']
  else if c = '\r' then ['\\', 'r']
  else if c = '\t' then ['\\', 't']
  else if c.toNat < 32 ∨ c = '<' ∨ c = '>' ∨ c = '&' then jsonUnicodeEscape c
  else if c.toNat = 8232 then ['\\', 'u', '2', '0', '2', '8']
  else if c.toNat = 8233 then ['\\', 'u', '2', '0', '2', '9']
  else [c]

/-- A JSON string literal. -/
def jsonString (s : String) : List Char :=
  ['"'] ++ s.data.flatMap jsonEscapeChar ++ ['"']

/-- Items separated by commas. -/
def jsonCommaSep : List (List Char) → List Char
  | [] => []
  | [x] => x
  | x :: y :: rest => x ++ [','] ++ jsonCommaSep (y :: rest)

/-- A JSON array of strings. -/
def jsonStringArray (xs : List String) : List Char :=
  ['['] ++ jsonCommaSep (xs.map jsonString) ++ [']']

/-- A member `"key":value` of a JSON object. -/
def jsonMember (key : String) (value : List Char) : List Char :=
  jsonString key ++ [':'] ++ value

/-- The members of one `httpMatch` under its struct tags: every field is
`omitempty`, so `false`, the empty string and a slice of length zero (nil or
not) are left out. -/
def jsonMatchMembers (hm : httpMatch) : List (List Char) :=
  (if hm.Any then [jsonMember "any" "true".data] else []) ++
  (if hm.Method = "" then [] else [jsonMember "method" (jsonString hm.Method)]) ++
  (match hm.Headers with
    | some (h :: hs) => [jsonMember "headers" (jsonStringArray (h :: hs))]
    | _ => []) ++
  (match hm.QueryParams with
    | some (p :: ps) => [jsonMember "params" (jsonStringArray (p :: ps))]
    | _ => []) ++
  (if hm.RedirectPath = "" then [] else [jsonMember "redirectPath" (jsonString hm.RedirectPath)])

/-- One `httpMatch` as a JSON object. -/
def jsonMatch (hm : httpMatch) : List Char :=
  ['{'] ++ jsonCommaSep (jsonMatchMembers hm) ++ ['}']

/-- The call `json.Marshal(matches)` on a slice made with `make`: the encoding,
and the error of the encoder, which has no failing case for a slice of structs
of booleans, strings and string slices. -/
def jsonMarshal (hmatches : List httpMatch) : String × Option GoError :=
  (String.mk (['['] ++ jsonCommaSep (hmatches.map jsonMatch) ++ [']']), none)

/-! ## Generating the server -/

/-- The state the loops of `generate` carry: the locations and the warnings
collected so far. -/
structure GenState where
  locs : List location
  warnings : Warnings
  deriving DecidableEq, Repr

/-- The inner loop of `generate`, over the routes of one group from index
`routeIdx` on; it returns the state and the matches collected.  `none` is a
panic (rule index out of range, or a nil predicate type). -/
def generateRoutes (path : String) (serviceStore : ServiceStore) :
    List Route → Nat → GenState → List httpMatch → Option (GenState × List httpMatch)
  | [], _, st, hmatches => some (st, hmatches)
  | r :: rest, routeIdx, st, hmatches =>
    match goIndex r.Source.Spec.Rules r.RuleIdx with
    | none => none
    | some rule =>
      let (address, err) := getBackendAddress rule.BackendRefs r.Source.Namespace serviceStore
      let warnings := match err with
        | some e => st.warnings.AddWarning r.Source e.Error
        | none => st.warnings
      let path' := createPathForMatch path routeIdx
      let locs := st.locs ++ [generateMatchLocation path' address]
      match createHTTPMatch r.GetMatch path' with
      | none => none
      | some hm =>
        generateRoutes path serviceStore rest (routeIdx + 1)
          { locs := locs, warnings := warnings } (hmatches ++ [hm])

/-- The outer loop of `generate`, over the path groups. -/
def generateGroups (serviceStore : ServiceStore) :
    List PathRouteGroup → GenState → Option GenState
  | [], st => some st
  | g :: rest, st =>
    match generateRoutes g.Path serviceStore g.Routes 0 st [] with
    | none => none
    | some (st, hmatches) =>
      if hmatches.length > 0 then
        match jsonMarshal hmatches with
        | (_, some _) => none
        | (b, none) =>
          let pathLoc : location :=
            { Path := g.Path, ProxyPass := "", HTTPMatchVar := b, Internal := false }
          generateGroups serviceStore rest { st with locs := st.locs ++ [pathLoc] }
      else
        generateGroups serviceStore rest st

/-- Function `generate`; `none` is a panic. -/
def generate (host : Host) (serviceStore : ServiceStore) : Option (server × Warnings) :=
  match generateGroups serviceStore host.PathRouteGroups { locs := [], warnings := newWarnings } with
  | none => none
  | some st => some ({ ServerName := host.Value, Locations := st.locs }, st.warnings)

/-! ## Splitting strings (package `strings`) -/

/-- The text before and after the first occurrence of `sep`, when there is
one. -/
def cutAt (sep : Char) : List Char → Option (List Char × List Char)
  | [] => none
  | c :: cs =>
    if c = sep then some ([], cs)
    else match cutAt sep cs with
      | none => none
      | some (before, after) => some (c :: before, after)

/-- The loop of `genSplit`: at most `n` cuts, then the rest as the last
piece. -/
def genSplitLoop (sep : Char) : Nat → List Char → List (List Char)
  | 0, s => [s]
  | n + 1, s =>
    match cutAt sep s with
    | none => [s]
    | some (before, after) => before :: genSplitLoop sep n after

/-- Function `strings.SplitN` for a separator of one ASCII character: no
piece for `n = 0`, every piece for `n < 0`, and otherwise at most `n` pieces,
the last one the unsplit remainder. -/
def SplitN (s : String) (sep : Char) (n : Int) : List String :=
  if n = 0 then []
  else
    let n : Int := if n < 0 then (s.data.count sep : Int) + 1 else n
    let n : Int := if n > (s.utf8ByteSize : Int) + 1 then (s.utf8ByteSize : Int) + 1 else n
    (genSplitLoop sep (n - 1).toNat s.data).map String.mk

/-- Function `strings.Split` for a separator of one ASCII character. -/
def Split (s : String) (sep : Char) : List String :=
  SplitN s sep (-1)

end Config

/-!
# nginx-kubernetes-gateway: status builder

A shallow embedding of `internal/mode/static/build_statuses.go`.  The packages
`conditions`, `status` and `graph` it works with are not among the sources;
their types follow the data model of the specification and their condition
constructors are taken as given.

Further conventions

* A map the program ranges over is given by its entries, with distinct keys,
  in one (arbitrary) iteration order; a map the program builds is given by its
  lookup function.
* Pointers stored in the graph (`*Route`, `*Listener`, the sources) are the
  values they point to; only the pointers the program compares with nil are
  `Option`s.
-/

namespace Static

/-! ## Maps -/

/-- A Go map that is ranged over: its entries, no key twice. -/
structure GoMap (K V : Type) where
  entries : List (K × V)
  nodup : (entries.map Prod.fst).Nodup

/-- The builtin `len` of a map. -/
def GoMap.len {K V : Type} (m : GoMap K V) : Nat := m.entries.length

/-- The keys of a map. -/
def GoMap.keys {K V : Type} (m : GoMap K V) : List K := m.entries.map Prod.fst

/-- A Go map that is built by assignments `m[k] = v`: its lookup function. -/
abbrev BuiltMap (K V : Type) := K → Option V

/-- The map made by `make`. -/
def BuiltMap.empty {K V : Type} : BuiltMap K V := fun _ => none

/-- The assignment `m[k] = v`. -/
def BuiltMap.set {K V : Type} [DecidableEq K] (m : BuiltMap K V) (k : K) (v : V) :
    BuiltMap K V :=
  fun k' => if k' = k then some v else m k'

/-- The conversion `int32(n)` of a Go `int`. -/
def int32 (n : Int) : Int := (n + 2 ^ 31) % 2 ^ 32 - 2 ^ 31

/-! ## Package `conditions` -/

/-- Modelled from the spec: type `conditions.Condition`, with its `Type` (here
`Typ`), `Status`, `Reason` and `Message`. -/
structure Condition where
  Typ : String
  Status : String
  Reason : String
  Message : String
  deriving DecidableEq, Repr

/-- Modelled from the spec: the order-tracking pass of the condition reducer,
the distinct types in order of first occurrence; `seen` holds the types met so
far. -/
def typeOrder : List Condition → List String → List String
  | [], _ => []
  | c :: rest, seen =>
    if c.Typ ∈ seen then typeOrder rest seen else c.Typ :: typeOrder rest (c.Typ :: seen)

/-- Modelled from the spec: the latest condition written for a type. -/
def lastOfType (t : String) (conds : List Condition) : Option Condition :=
  (conds.filter (fun c => decide (c.Typ = t))).getLast?

/-- Modelled from the spec: `conditions.DeduplicateConditions` (section 4.1):
one condition per distinct type, the last occurrence of the type, placed at the
position of the type's first occurrence. -/
def DeduplicateConditions (conds : List Condition) : List Condition :=
  (typeOrder conds []).filterMap (fun t => lastOfType t conds)

/-- Modelled from the spec: the constructors and messages of package
`conditions` that the status builder calls; what each of them returns is taken
as given. -/
structure ConditionsPackage where
  NewDefaultRouteConditions : List Condition
  NewRouteGatewayNotProgrammed : String → Condition
  RouteMessageFailedNginxReload : String
  NewDefaultGatewayClassConditions : List Condition
  NewGatewayClassConflict : Condition
  NewGatewayConflict : List Condition
  NewDefaultListenerConditions : List Condition
  NewListenerNotProgrammedInvalid : String → Condition
  ListenerMessageFailedNginxReload : String
  NewDefaultGatewayConditions : List Condition
  NewGatewayNotAcceptedListenersNotValid : List Condition
  NewGatewayAcceptedListenersNotValid : Condition
  NewGatewayNotProgrammedInvalid : String → Condition
  GatewayMessageFailedNginxReload : String

/-! ## Gateway API objects (package `v1beta1`) -/

/-- Type `v1beta1.GatewayClass`: the metadata the status builder reads. -/
structure v1beta1.GatewayClass where
  Namespace : String
  Name : String
  Generation : Int
  deriving DecidableEq, Repr

/-- Type `v1beta1.Gateway`: the metadata the status builder reads. -/
structure v1beta1.Gateway where
  Namespace : String
  Name : String
  Generation : Int
  deriving DecidableEq, Repr

/-- Type `v1beta1.ParentReference`. -/
structure v1beta1.ParentReference where
  SectionName : Option String
  deriving DecidableEq, Repr

/-- Type `v1beta1.HTTPRouteSpec`. -/
structure v1beta1.HTTPRouteSpec where
  ParentRefs : List v1beta1.ParentReference
  deriving DecidableEq, Repr

/-- Type `v1beta1.HTTPRoute`. -/
structure v1beta1.HTTPRoute where
  Namespace : String
  Name : String
  Generation : Int
  Spec : v1beta1.HTTPRouteSpec
  deriving DecidableEq, Repr

/-- Type `v1beta1.RouteGroupKind`. -/
structure v1beta1.RouteGroupKind where
  Group : Option String
  Kind : String
  deriving DecidableEq, Repr

/-- Function `client.ObjectKeyFromObject` on a GatewayClass. -/
def v1beta1.GatewayClass.ObjectKey (o : v1beta1.GatewayClass) : Config.NamespacedName :=
  { Namespace := o.Namespace, Name := o.Name }

/-- Function `client.ObjectKeyFromObject` on a Gateway. -/
def v1beta1.Gateway.ObjectKey (o : v1beta1.Gateway) : Config.NamespacedName :=
  { Namespace := o.Namespace, Name := o.Name }

/-! ## The resource graph (package `graph`) -/

/-- Modelled from the spec: the attachment of a route to a parent. -/
structure graph.ParentRefAttachmentStatus where
  Attached : Bool
  FailedCondition : Condition
  deriving DecidableEq, Repr

/-- Modelled from the spec: a parent reference of a route node. -/
structure graph.ParentRef where
  Idx : Int
  Gateway : Config.NamespacedName
  Attachment : Option graph.ParentRefAttachmentStatus
  deriving DecidableEq, Repr

/-- Modelled from the spec: a route node. -/
structure graph.Route where
  Source : v1beta1.HTTPRoute
  ParentRefs : List graph.ParentRef
  Conditions : List Condition
  deriving DecidableEq, Repr

/-- Modelled from the spec: a listener of the gateway. -/
structure graph.Listener where
  Valid : Bool
  Conditions : List Condition
  Routes : GoMap Config.NamespacedName graph.Route
  SupportedKinds : List v1beta1.RouteGroupKind

/-- Modelled from the spec: the live gateway class. -/
structure graph.GatewayClass where
  Source : v1beta1.GatewayClass
  Conditions : List Condition
  deriving DecidableEq, Repr

/-- Modelled from the spec: the live gateway. -/
structure graph.Gateway where
  Source : v1beta1.Gateway
  Listeners : GoMap String graph.Listener
  Conditions : List Condition
  Valid : Bool

/-- Modelled from the spec: the resource graph. -/
structure graph.Graph where
  GatewayClass : Option graph.GatewayClass
  IgnoredGatewayClasses : GoMap Config.NamespacedName v1beta1.GatewayClass
  Gateway : Option graph.Gateway
  IgnoredGateways : GoMap Config.NamespacedName v1beta1.Gateway
  Routes : GoMap Config.NamespacedName graph.Route

/-! ## The status report (package `status`) -/

/-- Modelled from the spec: the status of a route for one parent. -/
structure status.ParentStatus where
  GatewayNsName : Config.NamespacedName
  SectionName : Option String
  Conditions : List Condition
  deriving DecidableEq, Repr

/-- Modelled from the spec: the status of a route. -/
structure status.HTTPRouteStatus where
  ObservedGeneration : Int
  ParentStatuses : List status.ParentStatus
  deriving DecidableEq, Repr

/-- Modelled from the spec: the status of a gateway class. -/
structure status.GatewayClassStatus where
  Conditions : List Condition
  ObservedGeneration : Int
  deriving DecidableEq, Repr

/-- Modelled from the spec: the status of a listener. -/
structure status.ListenerStatus where
  AttachedRoutes : Int
  Conditions : List Condition
  SupportedKinds : List v1beta1.RouteGroupKind
  deriving DecidableEq, Repr

/-- Modelled from the spec: the status of a gateway. -/
structure status.GatewayStatus where
  Conditions : List Condition
  ListenerStatuses : BuiltMap String status.ListenerStatus
  ObservedGeneration : Int

/-- Modelled from the spec: the status report. -/
structure status.Statuses where
  GatewayClassStatuses : BuiltMap Config.NamespacedName status.GatewayClassStatus
  GatewayStatuses : BuiltMap Config.NamespacedName status.GatewayStatus
  HTTPRouteStatuses : BuiltMap Config.NamespacedName status.HTTPRouteStatus

/-! ## The status builder -/

/-- Type `nginxReloadResult`. -/
structure nginxReloadResult where
  error : Option Config.GoError

/-- Function `buildGatewayClassStatuses`. -/
def buildGatewayClassStatuses (conditions : ConditionsPackage) (gc : Option graph.GatewayClass)
    (ignoredGwClasses : GoMap Config.NamespacedName v1beta1.GatewayClass) :
    BuiltMap Config.NamespacedName status.GatewayClassStatus :=
  let statuses : BuiltMap Config.NamespacedName status.GatewayClassStatus := BuiltMap.empty
  let statuses := match gc with
    | some gc =>
      let defaultConds := conditions.NewDefaultGatewayClassConditions
      let conds := [] ++ defaultConds ++ gc.Conditions
      statuses.set gc.Source.ObjectKey
        { Conditions := DeduplicateConditions conds,
          ObservedGeneration := gc.Source.Generation }
    | none => statuses
  ignoredGwClasses.entries.foldl
    (fun statuses entry =>
      statuses.set entry.1
        { Conditions := [conditions.NewGatewayClassConflict],
          ObservedGeneration := entry.2.Generation })
    statuses

/-- The body of the loop over `gateway.Listeners` in `buildGatewayStatus`: the
state is the listener statuses and `validListenerCount`. -/
def listenerStep (conditions : ConditionsPackage) (nginxReloadRes : nginxReloadResult)
    (state : BuiltMap String status.ListenerStatus × Nat) (entry : String × graph.Listener) :
    BuiltMap String status.ListenerStatus × Nat :=
  let (listenerStatuses, validListenerCount) := state
  let (name, l) := entry
  let (conds, validListenerCount) :=
    if l.Valid then (conditions.NewDefaultListenerConditions, validListenerCount + 1)
    else (l.Conditions, validListenerCount)
  let conds :=
    if nginxReloadRes.error.isSome then
      conds ++ [conditions.NewListenerNotProgrammedInvalid
        conditions.ListenerMessageFailedNginxReload]
    else conds
  (listenerStatuses.set name
    { AttachedRoutes := int32 l.Routes.len,
      Conditions := DeduplicateConditions conds,
      SupportedKinds := l.SupportedKinds },
   validListenerCount)

/-- Function `buildGatewayStatus`. -/
def buildGatewayStatus (conditions : ConditionsPackage) (gateway : graph.Gateway)
    (nginxReloadRes : nginxReloadResult) : status.GatewayStatus :=
  if !gateway.Valid then
    { Conditions := DeduplicateConditions gateway.Conditions,
      ListenerStatuses := BuiltMap.empty,
      ObservedGeneration := gateway.Source.Generation }
  else
    let (listenerStatuses, validListenerCount) :=
      gateway.Listeners.entries.foldl (listenerStep conditions nginxReloadRes)
        (BuiltMap.empty, 0)
    let gwConds := conditions.NewDefaultGatewayConditions
    let gwConds :=
      if validListenerCount = 0 then
        gwConds ++ conditions.NewGatewayNotAcceptedListenersNotValid
      else if validListenerCount < gateway.Listeners.len then
        gwConds ++ [conditions.NewGatewayAcceptedListenersNotValid]
      else gwConds
    let gwConds :=
      if nginxReloadRes.error.isSome then
        gwConds ++ [conditions.NewGatewayNotProgrammedInvalid
          conditions.GatewayMessageFailedNginxReload]
      else gwConds
    { Conditions := DeduplicateConditions gwConds,
      ListenerStatuses := listenerStatuses,
      ObservedGeneration := gateway.Source.Generation }

/-- Function `buildGatewayStatuses`. -/
def buildGatewayStatuses (conditions : ConditionsPackage) (gateway : Option graph.Gateway)
    (ignoredGateways : GoMap Config.NamespacedName v1beta1.Gateway)
    (nginxReloadRes : nginxReloadResult) :
    BuiltMap Config.NamespacedName status.GatewayStatus :=
  let statuses : BuiltMap Config.NamespacedName status.GatewayStatus := BuiltMap.empty
  let statuses := match gateway with
    | some gateway =>
      statuses.set gateway.Source.ObjectKey (buildGatewayStatus conditions gateway nginxReloadRes)
    | none => statuses
  ignoredGateways.entries.foldl
    (fun statuses entry =>
      statuses.set entry.1
        { Conditions := conditions.NewGatewayConflict,
          ListenerStatuses := BuiltMap.empty,
          ObservedGeneration := entry.2.Generation })
    statuses

/-- The loop over `r.ParentRefs` in `buildStatuses`; `none` is the panic of the
index `r.Source.Spec.ParentRefs[ref.Idx]` out of range. -/
def buildParentStatuses (conditions : ConditionsPackage) (nginxReloadRes : nginxReloadResult)
    (r : graph.Route) (defaultConds : List Condition) :
    List graph.ParentRef → List status.ParentStatus → Option (List status.ParentStatus)
  | [], parentStatuses => some parentStatuses
  | ref :: rest, parentStatuses =>
    let allConds := [] ++ defaultConds ++ r.Conditions
    -- `failedAttachmentCondCount == 1`: the attachment is set and not attached
    let allConds := match ref.Attachment with
      | some attachment =>
        if !attachment.Attached then allConds ++ [attachment.FailedCondition] else allConds
      | none => allConds
    let allConds :=
      if nginxReloadRes.error.isSome then
        allConds ++ [conditions.NewRouteGatewayNotProgrammed
          conditions.RouteMessageFailedNginxReload]
      else allConds
    match Config.goIndex r.Source.Spec.ParentRefs ref.Idx with
    | none => none
    | some routeRef =>
      buildParentStatuses conditions nginxReloadRes r defaultConds rest
        (parentStatuses ++
          [{ GatewayNsName := ref.Gateway,
             SectionName := routeRef.SectionName,
             Conditions := DeduplicateConditions allConds }])

/-- The loop over `graph.Routes` in `buildStatuses`. -/
def buildRouteStatuses (conditions : ConditionsPackage) (nginxReloadRes : nginxReloadResult) :
    List (Config.NamespacedName × graph.Route) →
    BuiltMap Config.NamespacedName status.HTTPRouteStatus →
    Option (BuiltMap Config.NamespacedName status.HTTPRouteStatus)
  | [], statuses => some statuses
  | (nsname, r) :: rest, statuses =>
    let defaultConds := conditions.NewDefaultRouteConditions
    match buildParentStatuses conditions nginxReloadRes r defaultConds r.ParentRefs [] with
    | none => none
    | some parentStatuses =>
      buildRouteStatuses conditions nginxReloadRes rest
        (statuses.set nsname
          { ObservedGeneration := r.Source.Generation,
            ParentStatuses := parentStatuses })

/-- Function `buildStatuses`; `none` is a panic. -/
def buildStatuses (conditions : ConditionsPackage) (graph : graph.Graph)
    (nginxReloadRes : nginxReloadResult) : Option status.Statuses :=
  let gatewayClassStatuses :=
    buildGatewayClassStatuses conditions graph.GatewayClass graph.IgnoredGatewayClasses
  let gatewayStatuses :=
    buildGatewayStatuses conditions graph.Gateway graph.IgnoredGateways nginxReloadRes
  match buildRouteStatuses conditions nginxReloadRes graph.Routes.entries BuiltMap.empty with
  | none => none
  | some routeStatuses =>
    some { GatewayClassStatuses := gatewayClassStatuses,
           GatewayStatuses := gatewayStatuses,
           HTTPRouteStatuses := routeStatuses }

end Static

/-! # Properties -/

namespace Config

/-! ## Predicates of the specification -/

/-- The kind of a backend reference is absent or `"Service"`. -/
def kindSupported (ref : BackendRef) : Prop :=
  ref.Kind = none ∨ ref.Kind = some "Service"

instance (ref : BackendRef) : Decidable (kindSupported ref) := by
  unfold kindSupported; exact inferInstance

/-- The namespace a backend reference is resolved in: its own when set, the
namespace of the referencing route otherwise. -/
def refNamespace (ref : BackendRef) (parentNS : String) : String :=
  ref.Namespace.getD parentNS

/-- The name the resolver is asked for. -/
def refKey (ref : BackendRef) (parentNS : String) : NamespacedName :=
  { Namespace := refNamespace ref parentNS, Name := ref.Name }

/-- Every header and query-parameter predicate of a match has its type set. -/
def typesSet (m : HTTPRouteMatch) : Bool :=
  (m.Headers.getD []).all (fun h => h.Typ.isSome) &&
  (m.QueryParams.getD []).all (fun p => p.Typ.isSome)

/-- The rule index of a route view is within the rules of its source. -/
def ruleInRange (r : Route) : Prop :=
  0 ≤ r.RuleIdx ∧ r.RuleIdx < (r.Source.Spec.Rules.length : Int)

instance (r : Route) : Decidable (ruleInRange r) := by
  unfold ruleInRange; exact inferInstance

/-- A route view the generator can process: its rule index is in range and
the predicates of its match have their types set. -/
def routeWellFormed (r : Route) : Bool :=
  decide (ruleInRange r) && typesSet r.GetMatch

/-- Every route of every group of the host is well formed. -/
def hostWellFormed (host : Host) : Bool :=
  host.PathRouteGroups.all (fun g => g.Routes.all routeWellFormed)

/-- The backend references of the rule a route view points at
(`r.Source.Spec.Rules[r.RuleIdx].BackendRefs`). -/
def routeRefs (r : Route) : List HTTPBackendRef :=
  match goIndex r.Source.Spec.Rules r.RuleIdx with
  | some rule => rule.BackendRefs
  | none => []

/-- The backend resolution of a route: `getBackendAddress` on the references of
its rule and the namespace of its source. -/
def resolveRoute (serviceStore : ServiceStore) (r : Route) : String × Option GoError :=
  getBackendAddress (routeRefs r) r.Source.Namespace serviceStore

/-- The descriptor of a match whose predicate types are set. -/
def encodeMatch (m : HTTPRouteMatch) (redirectPath : String) : httpMatch :=
  if m.Method = none ∧ m.Headers = none ∧ m.QueryParams = none then
    { Any := true, Method := "", Headers := none, QueryParams := none,
      RedirectPath := redirectPath }
  else
    { Any := false,
      Method := m.Method.getD "",
      Headers := m.Headers.map (fun hs =>
        (hs.filter (fun h => decide (h.Typ = some "Exact"))).map
          (fun h => h.Name ++ ":" ++ h.Value)),
      QueryParams := m.QueryParams.map (fun ps =>
        (ps.filter (fun p => decide (p.Typ = some "Exact"))).map
          (fun p => p.Name ++ "=" ++ p.Value)),
      RedirectPath := redirectPath }

/-- The internal locations of a group, one per route in route order. -/
def groupInternal (serviceStore : ServiceStore) (g : PathRouteGroup) : List location :=
  g.Routes.enum.map (fun ir =>
    generateMatchLocation (createPathForMatch g.Path ir.1) (resolveRoute serviceStore ir.2).1)

/-- The match descriptors of a group, one per route in route order. -/
def groupMatches (g : PathRouteGroup) : List httpMatch :=
  g.Routes.enum.map (fun ir => encodeMatch ir.2.GetMatch (createPathForMatch g.Path ir.1))

/-- The public location of a group. -/
def groupPublic (g : PathRouteGroup) : location :=
  { Path := g.Path, ProxyPass := "", HTTPMatchVar := (jsonMarshal (groupMatches g)).1,
    Internal := false }

/-- The locations of a group: its internal locations, then its public location
when the group has a route. -/
def groupLocations (serviceStore : ServiceStore) (g : PathRouteGroup) : List location :=
  groupInternal serviceStore g ++ (if g.Routes.length > 0 then [groupPublic g] else [])

/-- The warning of a route: its source with the text of the resolution error,
when resolution failed. -/
def routeWarning (serviceStore : ServiceStore) (r : Route) : List (HTTPRoute × String) :=
  match (resolveRoute serviceStore r).2 with
  | some e => [(r.Source, e.Error)]
  | none => []

/-- The number a list of decimal digits, least significant first, stands for. -/
def decimalValueRev : List Char → Nat
  | [] => 0
  | c :: cs => (c.toNat - 48) + 10 * decimalValueRev cs

/-! ## Example inputs -/

/-- A resolver that knows every service but `missing`. -/
def exampleStore : ServiceStore :=
  ⟨fun key => if key.Name = "missing" then .error (.plain "service not found")
    else .ok "10.0.0.5"⟩

/-- A route source with one rule that refers to the service `svc` on `port`. -/
def exampleSource (name svc : String) (port : Option Int) : HTTPRoute :=
  { Namespace := "ns", Name := name,
    Spec := { Rules := [{ BackendRefs :=
      [{ BackendRef := { Kind := none, Name := svc, Namespace := none, Port := port } }] }] } }

/-- A host with a group of three routes, the second of which refers to a
service the resolver does not know, a group without routes, and a group of one
route. -/
def exampleHost : Host :=
  { Value := "cafe.example.com",
    PathRouteGroups :=
      [{ Path := "/coffee",
         Routes :=
           [{ Source := exampleSource "coffee-get" "coffee" (some 80), RuleIdx := 0,
              Match := ⟨some "/coffee", some [⟨some "Exact", "X-Id", "42"⟩], none, some "GET"⟩ },
            { Source := exampleSource "coffee-lost" "missing" (some 80), RuleIdx := 0,
              Match := ⟨some "/coffee", none, some [⟨some "Exact", "q", "a=b"⟩], none⟩ },
            { Source := exampleSource "coffee-any" "coffee" (some 8080), RuleIdx := 0,
              Match := ⟨some "/coffee", none, none, none⟩ }] },
       { Path := "/empty", Routes := [] },
       { Path := "/tea",
         Routes :=
           [{ Source := exampleSource "tea" "tea" (some 80), RuleIdx := 0,
              Match := ⟨some "/tea", none, none, none⟩ }] }] }

/-- A host whose only route points at rule 1 of a source that has one rule. -/
def ruleOutOfRangeHost : Host :=
  { Value := "cafe.example.com",
    PathRouteGroups :=
      [{ Path := "/coffee",
         Routes :=
           [{ Source := exampleSource "coffee" "coffee" (some 80), RuleIdx := 1,
              Match := ⟨some "/coffee", none, none, none⟩ }] }] }

/-- A host whose only route has a header predicate without a type. -/
def untypedHeaderHost : Host :=
  { Value := "cafe.example.com",
    PathRouteGroups :=
      [{ Path := "/coffee",
         Routes :=
           [{ Source := exampleSource "coffee" "coffee" (some 80), RuleIdx := 0,
              Match := ⟨some "/coffee", some [⟨none, "X-Id", "42"⟩], none, none⟩ }] }] }

/-- A host whose only route has a query-parameter predicate without a type. -/
def untypedParamHost : Host :=
  { Value := "cafe.example.com",
    PathRouteGroups :=
      [{ Path := "/tea",
         Routes :=
           [{ Source := exampleSource "tea" "tea" (some 80), RuleIdx := 0,
              Match := ⟨some "/tea", none, some [⟨none, "q", "1"⟩], none⟩ }] }] }

/-- A host with the group `/a` of one route and the group `/a_route0` without
routes. -/
def routelessHost : Host :=
  { Value := "cafe.example.com",
    PathRouteGroups :=
      [{ Path := "/a",
         Routes :=
           [{ Source := exampleSource "a" "coffee" (some 80), RuleIdx := 0,
              Match := ⟨some "/a", none, none, none⟩ }] },
       { Path := "/a_route0", Routes := [] }] }

/-- A host with the groups `/a` and `/a_route0`, of one route each. -/
def collidingHost : Host :=
  { Value := "cafe.example.com",
    PathRouteGroups :=
      [{ Path := "/a",
         Routes :=
           [{ Source := exampleSource "a" "coffee" (some 80), RuleIdx := 0,
              Match := ⟨some "/a", none, none, none⟩ }] },
       { Path := "/a_route0",
         Routes :=
           [{ Source := exampleSource "b" "tea" (some 80), RuleIdx := 0,
              Match := ⟨some "/a_route0", none, none, none⟩ }] }] }

end Config

namespace Static

/-! ## Predicates of the specification (status builder) -/

/-- The reload-failure condition of a route parent, when the reload outcome
carries an error. -/
def reloadRoute (conditions : ConditionsPackage) (res : nginxReloadResult) : List Condition :=
  if res.error.isSome then
    [conditions.NewRouteGatewayNotProgrammed conditions.RouteMessageFailedNginxReload]
  else []

/-- The reload-failure condition of a listener, when the reload outcome carries
an error. -/
def reloadListener (conditions : ConditionsPackage) (res : nginxReloadResult) : List Condition :=
  if res.error.isSome then
    [conditions.NewListenerNotProgrammedInvalid conditions.ListenerMessageFailedNginxReload]
  else []

/-- The reload-failure condition of the gateway, when the reload outcome carries
an error. -/
def reloadGateway (conditions : ConditionsPackage) (res : nginxReloadResult) : List Condition :=
  if res.error.isSome then
    [conditions.NewGatewayNotProgrammedInvalid conditions.GatewayMessageFailedNginxReload]
  else []

/-- The failure condition of a parent reference whose attachment is present and
not attached. -/
def failedAttachment (ref : graph.ParentRef) : List Condition :=
  match ref.Attachment with
  | some attachment => if attachment.Attached then [] else [attachment.FailedCondition]
  | none => []

/-- The index of a parent reference is within the parent references of the
route's source. -/
def idxInRange (r : graph.Route) (ref : graph.ParentRef) : Prop :=
  0 ≤ ref.Idx ∧ ref.Idx < (r.Source.Spec.ParentRefs.length : Int)

instance (r : graph.Route) (ref : graph.ParentRef) : Decidable (idxInRange r ref) := by
  unfold idxInRange; exact inferInstance

/-- Every parent reference of every route of the graph has its index in
range. -/
def graphIdxInRange (g : graph.Graph) : Bool :=
  g.Routes.entries.all (fun e => e.2.ParentRefs.all (fun ref => decide (idxInRange e.2 ref)))

/-- The status of a listener as the specification gives it. -/
def listenerStatus (conditions : ConditionsPackage) (res : nginxReloadResult)
    (l : graph.Listener) : status.ListenerStatus :=
  { AttachedRoutes := int32 l.Routes.len,
    Conditions := DeduplicateConditions
      ((if l.Valid then conditions.NewDefaultListenerConditions else l.Conditions) ++
        reloadListener conditions res),
    SupportedKinds := l.SupportedKinds }

/-- The status of a route for one parent reference as the specification gives
it; the section name is that of the original parent reference at the index. -/
def parentStatus (conditions : ConditionsPackage) (res : nginxReloadResult)
    (r : graph.Route) (ref : graph.ParentRef) : status.ParentStatus :=
  { GatewayNsName := ref.Gateway,
    SectionName := match Config.goIndex r.Source.Spec.ParentRefs ref.Idx with
      | some routeRef => routeRef.SectionName
      | none => none,
    Conditions := DeduplicateConditions
      (conditions.NewDefaultRouteConditions ++ r.Conditions ++ failedAttachment ref ++
        reloadRoute conditions res) }

/-! ## Example inputs (status builder) -/

/-- A condition with the given type, status and reason. -/
def exampleCondition (typ status reason : String) : Condition :=
  { Typ := typ, Status := status, Reason := reason, Message := reason }

/-- An instance of the constructors of package `conditions` for the examples;
every condition is named after its role. -/
def exampleConditions : ConditionsPackage :=
  { NewDefaultRouteConditions :=
      [exampleCondition "Accepted" "True" "Accepted",
       exampleCondition "ResolvedRefs" "True" "ResolvedRefs"],
    NewRouteGatewayNotProgrammed := fun msg =>
      { Typ := "Programmed", Status := "False", Reason := "GatewayNotProgrammed", Message := msg },
    RouteMessageFailedNginxReload := "reload failed",
    NewDefaultGatewayClassConditions := [exampleCondition "Accepted" "True" "Accepted"],
    NewGatewayClassConflict := exampleCondition "Accepted" "False" "GatewayClassConflict",
    NewGatewayConflict :=
      [exampleCondition "Accepted" "False" "GatewayConflict",
       exampleCondition "Programmed" "False" "GatewayConflict"],
    NewDefaultListenerConditions :=
      [exampleCondition "Accepted" "True" "Accepted",
       exampleCondition "Programmed" "True" "Programmed"],
    NewListenerNotProgrammedInvalid := fun msg =>
      { Typ := "Programmed", Status := "False", Reason := "Invalid", Message := msg },
    ListenerMessageFailedNginxReload := "reload failed",
    NewDefaultGatewayConditions :=
      [exampleCondition "Accepted" "True" "Accepted",
       exampleCondition "Programmed" "True" "Programmed"],
    NewGatewayNotAcceptedListenersNotValid :=
      [exampleCondition "Accepted" "False" "ListenersNotValid",
       exampleCondition "Programmed" "False" "Invalid"],
    NewGatewayAcceptedListenersNotValid :=
      exampleCondition "Accepted" "True" "ListenersNotValid",
    NewGatewayNotProgrammedInvalid := fun msg =>
      { Typ := "Programmed", Status := "False", Reason := "Invalid", Message := msg },
    GatewayMessageFailedNginxReload := "reload failed" }

/-- The empty map. -/
def emptyMap {K V : Type} : GoMap K V := ⟨[], List.nodup_nil⟩

/-- A reload that failed. -/
def reloadFailed : nginxReloadResult := ⟨some (.plain "exit status 1")⟩

/-- A reload that succeeded. -/
def reloadOk : nginxReloadResult := ⟨none⟩

/-- A route with two parent references, the first attached and the second not,
whose source names the sections `http` and `https`. -/
def exampleRoute : graph.Route :=
  { Source := { Namespace := "default", Name := "cafe", Generation := 3,
                Spec := { ParentRefs := [⟨some "http"⟩, ⟨some "https"⟩] } },
    ParentRefs :=
      [{ Idx := 0, Gateway := ⟨"default", "gateway"⟩, Attachment := some ⟨true, exampleCondition "Accepted" "True" "Accepted"⟩ },
       { Idx := 1, Gateway := ⟨"default", "gateway"⟩,
         Attachment := some ⟨false, exampleCondition "Accepted" "False" "NoMatchingListener"⟩ }],
    Conditions := [exampleCondition "ResolvedRefs" "False" "BackendNotFound"] }

/-- A route whose only parent reference has index 1 while its source has one
parent reference. -/
def idxOutOfRangeRoute : graph.Route :=
  { Source := { Namespace := "default", Name := "tea", Generation := 1,
                Spec := { ParentRefs := [⟨none⟩] } },
    ParentRefs := [{ Idx := 1, Gateway := ⟨"default", "gateway"⟩, Attachment := none }],
    Conditions := [] }

/-- A route whose only parent reference has a negative index. -/
def idxNegativeRoute : graph.Route :=
  { Source := { Namespace := "default", Name := "tea", Generation := 1,
                Spec := { ParentRefs := [⟨none⟩] } },
    ParentRefs := [{ Idx := -1, Gateway := ⟨"default", "gateway"⟩, Attachment := none }],
    Conditions := [] }

/-- A gateway with a valid listener `http` that has one route and an invalid
listener `https`. -/
def exampleGateway (valid : Bool) : graph.Gateway :=
  { Source := { Namespace := "default", Name := "gateway", Generation := 7 },
    Listeners :=
      ⟨[("http", { Valid := true, Conditions := [],
                   Routes := ⟨[(⟨"default", "cafe"⟩, exampleRoute)], by decide⟩,
                   SupportedKinds := [⟨none, "HTTPRoute"⟩] }),
        ("https", { Valid := false,
                    Conditions := [exampleCondition "Accepted" "False" "UnsupportedProtocol"],
                    Routes := emptyMap,
                    SupportedKinds := [] })], by decide⟩,
    Conditions := [exampleCondition "Accepted" "False" "UnsupportedValue"],
    Valid := valid }

/-- A graph with a live class, a live gateway of the given validity, an ignored
class and an ignored gateway, and the given routes. -/
def exampleGraph (valid : Bool) (routes : GoMap Config.NamespacedName graph.Route) :
    graph.Graph :=
  { GatewayClass := some
      { Source := { Namespace := "", Name := "nginx", Generation := 2 },
        Conditions := [exampleCondition "Accepted" "False" "InvalidParameters"] },
    IgnoredGatewayClasses :=
      ⟨[(⟨"", "other"⟩, { Namespace := "", Name := "other", Generation := 5 })], by decide⟩,
    Gateway := some (exampleGateway valid),
    IgnoredGateways :=
      ⟨[(⟨"default", "second"⟩, { Namespace := "default", Name := "second", Generation := 9 })],
        by decide⟩,
    Routes := routes }

/-- The routes of the example graph. -/
def exampleRoutes : GoMap Config.NamespacedName graph.Route :=
  ⟨[(⟨"default", "cafe"⟩, exampleRoute)], by decide⟩

/-- A route set of `n` routes, named by strings of `n` different lengths. -/
def manyRoutes (n : Nat) : GoMap Config.NamespacedName graph.Route :=
  ⟨(List.range n).map
      (fun i => (⟨"default", String.mk (List.replicate i 'r')⟩, exampleRoute)),
    by
      rw [List.map_map]
      refine (List.nodup_range n).map ?_
      intro i j h
      have hlen := congrArg (fun k : Config.NamespacedName => k.Name.length) h
      simpa [String.length] using hlen⟩

/-- A valid gateway with one listener that has `2 ^ 31` routes. -/
def crowdedGateway : graph.Gateway :=
  { Source := { Namespace := "default", Name := "gateway", Generation := 7 },
    Listeners :=
      ⟨[("http", { Valid := true, Conditions := [], Routes := manyRoutes (2 ^ 31),
                   SupportedKinds := [] })], by decide⟩,
    Conditions := [],
    Valid := true }

end Static

namespace Config

/-! ## Lemmas on the checks of `getBackendAddress` -/

theorem kindCheck_of_supported (ref : BackendRef) (h : kindSupported ref) :
    (match ref.Kind with
      | some kind => if kind ≠ "Service" then some kind else none
      | none => none) = none := by
  rcases h with h | h <;> simp [h]

theorem kindCheck_of_unsupported (ref : BackendRef) (kind : String)
    (hk : ref.Kind = some kind) (hne : kind ≠ "Service") :
    (match ref.Kind with
      | some kind => if kind ≠ "Service" then some kind else none
      | none => none) = some kind := by
  simp [hk, hne]

theorem namespace_match_eq (ref : BackendRef) (parentNS : String) :
    (match ref.Namespace with
      | some n => n
      | none => parentNS) = refNamespace ref parentNS := by
  unfold refNamespace; cases ref.Namespace <;> rfl

/-! ## Backend resolution -/

theorem getBackendAddress_unsupported (first : HTTPBackendRef) (rest : List HTTPBackendRef)
    (parentNS : String) (serviceStore : ServiceStore) (kind : String)
    (hk : first.BackendRef.Kind = some kind) (hne : kind ≠ "Service") :
    getBackendAddress (first :: rest) parentNS serviceStore =
      ("", some (.plain ("unsupported kind " ++ kind))) := by
  simp only [getBackendAddress, kindCheck_of_unsupported _ kind hk hne]

theorem getBackendAddress_unresolved (first : HTTPBackendRef) (rest : List HTTPBackendRef)
    (parentNS : String) (serviceStore : ServiceStore) (err : GoError)
    (hkind : kindSupported first.BackendRef)
    (hres : serviceStore.Resolve (refKey first.BackendRef parentNS) = .error err) :
    getBackendAddress (first :: rest) parentNS serviceStore =
      ("", some (.wrapping
        ("service " ++ refNamespace first.BackendRef parentNS ++ "/" ++
          first.BackendRef.Name ++ " cannot be resolved: " ++ err.Error) err)) := by
  unfold refKey at hres
  simp only [getBackendAddress, kindCheck_of_supported _ hkind, namespace_match_eq, hres]

theorem getBackendAddress_port_nil (first : HTTPBackendRef) (rest : List HTTPBackendRef)
    (parentNS : String) (serviceStore : ServiceStore) (a : String)
    (hkind : kindSupported first.BackendRef)
    (hres : serviceStore.Resolve (refKey first.BackendRef parentNS) = .ok a)
    (hport : first.BackendRef.Port = none) :
    getBackendAddress (first :: rest) parentNS serviceStore =
      ("", some (.plain "port is nil")) := by
  unfold refKey at hres
  simp only [getBackendAddress, kindCheck_of_supported _ hkind, namespace_match_eq, hres, hport]

theorem getBackendAddress_resolved (first : HTTPBackendRef) (rest : List HTTPBackendRef)
    (parentNS : String) (serviceStore : ServiceStore) (a : String) (p : Int)
    (hkind : kindSupported first.BackendRef)
    (hres : serviceStore.Resolve (refKey first.BackendRef parentNS) = .ok a)
    (hport : first.BackendRef.Port = some p) :
    getBackendAddress (first :: rest) parentNS serviceStore = (a ++ ":" ++ fmtInt p, none) := by
  unfold refKey at hres
  simp only [getBackendAddress, kindCheck_of_supported _ hkind, namespace_match_eq, hres, hport]

theorem kind_of_not_supported (ref : BackendRef) (h : ¬ kindSupported ref) :
    ∃ kind, ref.Kind = some kind ∧ kind ≠ "Service" := by
  unfold kindSupported at h
  cases hK : ref.Kind with
  | none => exact absurd (Or.inl hK) h
  | some kind =>
    refine ⟨kind, rfl, ?_⟩
    rintro rfl
    exact h (Or.inr hK)

theorem unsupported_text_ne (kind : String) : "unsupported kind " ++ kind ≠ "port is nil" := by
  intro h
  have := congrArg String.data h
  simp [String.data_append] at this

/-- C1. When the first reference has a supported kind and a port `p`, and the
resolver answers `a` for its (namespace, name), `getBackendAddress` returns
`a ++ ":" ++ decimal p` and no error, whatever follows in the list. -/
theorem getBackendAddress_success_format (first : HTTPBackendRef) (rest : List HTTPBackendRef)
    (parentNS : String) (serviceStore : ServiceStore) (a : String) (p : Int)
    (hkind : kindSupported first.BackendRef)
    (hport : first.BackendRef.Port = some p)
    (hres : serviceStore.Resolve (refKey first.BackendRef parentNS) = .ok a) :
    getBackendAddress (first :: rest) parentNS serviceStore = (a ++ ":" ++ fmtInt p, none) :=
  getBackendAddress_resolved first rest parentNS serviceStore a p hkind hres hport

/-- C1, at address `10.0.0.5` and port 8080, with a second reference that is
ignored. -/
theorem getBackendAddress_success_format_witness :
    getBackendAddress
      [⟨⟨none, "svc", none, some 8080⟩⟩, ⟨⟨some "ConfigMap", "other", none, none⟩⟩]
      "ns" ⟨fun _ => .ok "10.0.0.5"⟩ = ("10.0.0.5:8080", none) :=
  (getBackendAddress_success_format ⟨⟨none, "svc", none, some 8080⟩⟩
    [⟨⟨some "ConfigMap", "other", none, none⟩⟩] "ns" ⟨fun _ => .ok "10.0.0.5"⟩ "10.0.0.5" 8080
    (by decide) rfl rfl).trans (by decide)

/-- C2. `getBackendAddress` reports the first failing check, in the order
empty list, unsupported kind, resolver failure, missing port; it fails exactly
when one of the four fails; every failure carries the empty address; and with
no failing check it returns no error. -/
theorem getBackendAddress_first_failing_check (refs : List HTTPBackendRef) (parentNS : String)
    (serviceStore : ServiceStore) :
    (refs = [] →
      getBackendAddress refs parentNS serviceStore = ("", some (.plain "empty backend refs"))) ∧
    (∀ first rest, refs = first :: rest →
      (∀ kind, first.BackendRef.Kind = some kind → kind ≠ "Service" →
        getBackendAddress refs parentNS serviceStore =
          ("", some (.plain ("unsupported kind " ++ kind)))) ∧
      (∀ err, kindSupported first.BackendRef →
        serviceStore.Resolve (refKey first.BackendRef parentNS) = .error err →
        getBackendAddress refs parentNS serviceStore =
          ("", some (.wrapping
            ("service " ++ refNamespace first.BackendRef parentNS ++ "/" ++
              first.BackendRef.Name ++ " cannot be resolved: " ++ err.Error) err))) ∧
      (∀ a, kindSupported first.BackendRef →
        serviceStore.Resolve (refKey first.BackendRef parentNS) = .ok a →
        first.BackendRef.Port = none →
        getBackendAddress refs parentNS serviceStore = ("", some (.plain "port is nil")))) ∧
    ((getBackendAddress refs parentNS serviceStore).2 ≠ none ↔
      (refs = [] ∨ ∃ first rest, refs = first :: rest ∧
        (¬ kindSupported first.BackendRef ∨
         (∃ err, serviceStore.Resolve (refKey first.BackendRef parentNS) = .error err) ∨
         first.BackendRef.Port = none))) ∧
    ((getBackendAddress refs parentNS serviceStore).2 ≠ none →
      (getBackendAddress refs parentNS serviceStore).1 = "") := by
  refine ⟨?_, ?_, ?_, ?_⟩
  · rintro rfl; rfl
  · rintro first rest rfl
    exact ⟨fun kind hk hne => getBackendAddress_unsupported first rest parentNS serviceStore kind hk hne,
      fun err hkind hres => getBackendAddress_unresolved first rest parentNS serviceStore err hkind hres,
      fun a hkind hres hport =>
        getBackendAddress_port_nil first rest parentNS serviceStore a hkind hres hport⟩
  · cases refs with
    | nil => simp [getBackendAddress]
    | cons first rest =>
      by_cases hkind : kindSupported first.BackendRef
      · cases hres : serviceStore.Resolve (refKey first.BackendRef parentNS) with
        | error err =>
          rw [getBackendAddress_unresolved first rest parentNS serviceStore err hkind hres]
          simp only [ne_eq, reduceCtorEq, not_false_eq_true, false_or, true_iff]
          exact ⟨first, rest, rfl, Or.inr (Or.inl ⟨err, hres⟩)⟩
        | ok a =>
          cases hport : first.BackendRef.Port with
          | none =>
            rw [getBackendAddress_port_nil first rest parentNS serviceStore a hkind hres hport]
            simp [hport]
          | some p =>
            rw [getBackendAddress_resolved first rest parentNS serviceStore a p hkind hres hport]
            simp [hkind, hport, hres]
      · obtain ⟨kind, hK, hne⟩ := kind_of_not_supported _ hkind
        rw [getBackendAddress_unsupported first rest parentNS serviceStore kind hK hne]
        simp [hkind]
  · cases refs with
    | nil => intro _; rfl
    | cons first rest =>
      by_cases hkind : kindSupported first.BackendRef
      · cases hres : serviceStore.Resolve (refKey first.BackendRef parentNS) with
        | error err =>
          rw [getBackendAddress_unresolved first rest parentNS serviceStore err hkind hres]
          intro _; rfl
        | ok a =>
          cases hport : first.BackendRef.Port with
          | none =>
            rw [getBackendAddress_port_nil first rest parentNS serviceStore a hkind hres hport]
            intro _; rfl
          | some p =>
            rw [getBackendAddress_resolved first rest parentNS serviceStore a p hkind hres hport]
            intro h; exact absurd rfl h
      · obtain ⟨kind, hK, hne⟩ := kind_of_not_supported _ hkind
        rw [getBackendAddress_unsupported first rest parentNS serviceStore kind hK hne]
        intro _; rfl

/-- C3, as stated, fails: a first reference without a port and of kind
`ConfigMap` is reported as an unsupported kind, not as a missing port. -/
theorem nil_port_reports_unsupported_kind :
    (⟨⟨some "ConfigMap", "svc", none, none⟩⟩ : HTTPBackendRef).BackendRef.Port = none ∧
    getBackendAddress [⟨⟨some "ConfigMap", "svc", none, none⟩⟩] "ns" ⟨fun _ => .ok "10.0.0.5"⟩ =
      ("", some (.plain "unsupported kind ConfigMap")) ∧
    (getBackendAddress [⟨⟨some "ConfigMap", "svc", none, none⟩⟩] "ns"
      ⟨fun _ => .ok "10.0.0.5"⟩).2 ≠ some (.plain "port is nil") := by
  decide

/-- C3, amended. When the first reference has no port, `getBackendAddress`
fails with the empty address; the error is `port is nil` exactly when the kind
is supported and the resolver answers for the reference; otherwise it is the
error of the earlier failing check: the unsupported-kind error when the kind is
set and not `Service`, and else the cannot-be-resolved error wrapping the
resolver's error. -/
theorem getBackendAddress_nil_port (first : HTTPBackendRef) (rest : List HTTPBackendRef)
    (parentNS : String) (serviceStore : ServiceStore)
    (hport : first.BackendRef.Port = none) :
    (getBackendAddress (first :: rest) parentNS serviceStore).1 = "" ∧
    (getBackendAddress (first :: rest) parentNS serviceStore).2 ≠ none ∧
    ((getBackendAddress (first :: rest) parentNS serviceStore).2 = some (.plain "port is nil") ↔
      (kindSupported first.BackendRef ∧
        ∃ a, serviceStore.Resolve (refKey first.BackendRef parentNS) = .ok a)) ∧
    (∀ kind, first.BackendRef.Kind = some kind → kind ≠ "Service" →
      (getBackendAddress (first :: rest) parentNS serviceStore).2 =
        some (.plain ("unsupported kind " ++ kind))) ∧
    (∀ err, kindSupported first.BackendRef →
      serviceStore.Resolve (refKey first.BackendRef parentNS) = .error err →
      (getBackendAddress (first :: rest) parentNS serviceStore).2 =
        some (.wrapping
          ("service " ++ refNamespace first.BackendRef parentNS ++ "/" ++
            first.BackendRef.Name ++ " cannot be resolved: " ++ err.Error) err)) := by
  refine ⟨?_, ?_, ?_, ?_, ?_⟩
  · by_cases hkind : kindSupported first.BackendRef
    · cases hres : serviceStore.Resolve (refKey first.BackendRef parentNS) with
      | error err =>
        rw [getBackendAddress_unresolved first rest parentNS serviceStore err hkind hres]
      | ok a =>
        rw [getBackendAddress_port_nil first rest parentNS serviceStore a hkind hres hport]
    · obtain ⟨kind, hK, hne⟩ := kind_of_not_supported _ hkind
      rw [getBackendAddress_unsupported first rest parentNS serviceStore kind hK hne]
  · by_cases hkind : kindSupported first.BackendRef
    · cases hres : serviceStore.Resolve (refKey first.BackendRef parentNS) with
      | error err =>
        rw [getBackendAddress_unresolved first rest parentNS serviceStore err hkind hres]
        simp
      | ok a =>
        rw [getBackendAddress_port_nil first rest parentNS serviceStore a hkind hres hport]
        simp
    · obtain ⟨kind, hK, hne⟩ := kind_of_not_supported _ hkind
      rw [getBackendAddress_unsupported first rest parentNS serviceStore kind hK hne]
      simp
  · by_cases hkind : kindSupported first.BackendRef
    · cases hres : serviceStore.Resolve (refKey first.BackendRef parentNS) with
      | error err =>
        rw [getBackendAddress_unresolved first rest parentNS serviceStore err hkind hres]
        simp
      | ok a =>
        rw [getBackendAddress_port_nil first rest parentNS serviceStore a hkind hres hport]
        simp [hkind]
    · obtain ⟨kind, hK, hne⟩ := kind_of_not_supported _ hkind
      rw [getBackendAddress_unsupported first rest parentNS serviceStore kind hK hne]
      simp [hkind, unsupported_text_ne kind]
  · intro kind hK hne
    rw [getBackendAddress_unsupported first rest parentNS serviceStore kind hK hne]
  · intro err hkind hres
    rw [getBackendAddress_unresolved first rest parentNS serviceStore err hkind hres]

/-- C3 amended, at references without a port: one of supported kind that the
resolver answers, one of kind `ConfigMap`, and one that the resolver does not
know. -/
theorem getBackendAddress_nil_port_witness :
    (getBackendAddress [⟨⟨none, "svc", none, none⟩⟩] "ns" exampleStore).2 =
      some (.plain "port is nil") ∧
    (getBackendAddress [⟨⟨some "ConfigMap", "svc", none, none⟩⟩] "ns" exampleStore).2 =
      some (.plain "unsupported kind ConfigMap") ∧
    (getBackendAddress [⟨⟨none, "missing", none, none⟩⟩] "ns" exampleStore).2 =
      some (.wrapping "service ns/missing cannot be resolved: service not found"
        (.plain "service not found")) :=
  ⟨(getBackendAddress_nil_port ⟨⟨none, "svc", none, none⟩⟩ [] "ns" exampleStore rfl).2.2.1.mpr
      ⟨by decide, "10.0.0.5", rfl⟩,
   (getBackendAddress_nil_port ⟨⟨some "ConfigMap", "svc", none, none⟩⟩ [] "ns" exampleStore
      rfl).2.2.2.1 "ConfigMap" rfl (by decide),
   ((getBackendAddress_nil_port ⟨⟨none, "missing", none, none⟩⟩ [] "ns" exampleStore
      rfl).2.2.2.2 (.plain "service not found") (by decide) rfl).trans (by decide)⟩

/-! ## Encoding a match -/

theorem collectHeaders_typed (hs : List HTTPHeaderMatch) (acc : List String)
    (h : hs.all (fun h => h.Typ.isSome) = true) :
    collectHeaders hs acc = some (acc ++
      (hs.filter (fun h => decide (h.Typ = some "Exact"))).map
        (fun h => h.Name ++ ":" ++ h.Value)) := by
  induction hs generalizing acc with
  | nil => simp [collectHeaders]
  | cons x xs ih =>
    simp only [List.all_cons, Bool.and_eq_true] at h
    obtain ⟨hx, hxs⟩ := h
    obtain ⟨t, ht⟩ := Option.isSome_iff_exists.mp hx
    by_cases hte : t = "Exact"
    · simp [collectHeaders, ht, hte, HeaderMatchExact, ih _ hxs, createHeaderKeyValString]
    · simp [collectHeaders, ht, hte, HeaderMatchExact, ih _ hxs]

theorem collectParams_typed (ps : List HTTPQueryParamMatch) (acc : List String)
    (h : ps.all (fun p => p.Typ.isSome) = true) :
    collectParams ps acc = some (acc ++
      (ps.filter (fun p => decide (p.Typ = some "Exact"))).map
        (fun p => p.Name ++ "=" ++ p.Value)) := by
  induction ps generalizing acc with
  | nil => simp [collectParams]
  | cons x xs ih =>
    simp only [List.all_cons, Bool.and_eq_true] at h
    obtain ⟨hx, hxs⟩ := h
    obtain ⟨t, ht⟩ := Option.isSome_iff_exists.mp hx
    by_cases hte : t = "Exact"
    · simp [collectParams, ht, hte, QueryParamMatchExact, ih _ hxs, createQueryParamKeyValString]
    · simp [collectParams, ht, hte, QueryParamMatchExact, ih _ hxs]

theorem createHTTPMatch_of_path_only (m : HTTPRouteMatch) (redirectPath : String)
    (hmethod : m.Method = none) (hheaders : m.Headers = none) (hparams : m.QueryParams = none) :
    createHTTPMatch m redirectPath =
      some { Any := true, Method := "", Headers := none, QueryParams := none,
             RedirectPath := redirectPath } := by
  simp [createHTTPMatch, isPathOnlyMatch, hmethod, hheaders, hparams]

theorem createHTTPMatch_of_predicates (m : HTTPRouteMatch) (redirectPath : String)
    (hnot : ¬ (m.Method = none ∧ m.Headers = none ∧ m.QueryParams = none))
    (htyped : typesSet m = true) :
    createHTTPMatch m redirectPath =
      some { Any := false,
             Method := m.Method.getD "",
             Headers := m.Headers.map (fun hs =>
               (hs.filter (fun h => decide (h.Typ = some "Exact"))).map
                 (fun h => h.Name ++ ":" ++ h.Value)),
             QueryParams := m.QueryParams.map (fun ps =>
               (ps.filter (fun p => decide (p.Typ = some "Exact"))).map
                 (fun p => p.Name ++ "=" ++ p.Value)),
             RedirectPath := redirectPath } := by
  obtain ⟨path, headers, params, method⟩ := m
  simp only [typesSet, Bool.and_eq_true] at htyped
  obtain ⟨hh, hp⟩ := htyped
  have hpo : isPathOnlyMatch ⟨path, headers, params, method⟩ = false := by
    simp only [isPathOnlyMatch]
    cases method <;> cases headers <;> cases params <;> simp_all
  simp only [createHTTPMatch, hpo]
  cases method <;> cases headers <;> cases params <;>
    simp_all [collectHeaders_typed, collectParams_typed]

/-- C7. A match with no method, no header list and no query-parameter list is
encoded, for any redirect path, as a descriptor with `Any = true`, the empty
method, and nil header and query-parameter lists. -/
theorem createHTTPMatch_path_only (m : HTTPRouteMatch) (redirectPath : String)
    (hmethod : m.Method = none) (hheaders : m.Headers = none) (hparams : m.QueryParams = none) :
    createHTTPMatch m redirectPath =
      some { Any := true, Method := "", Headers := none, QueryParams := none,
             RedirectPath := redirectPath } :=
  createHTTPMatch_of_path_only m redirectPath hmethod hheaders hparams

/-- C7, at the match of path `/coffee` alone. -/
theorem createHTTPMatch_path_only_witness :
    createHTTPMatch ⟨some "/coffee", none, none, none⟩ "/coffee_route0" =
      some { Any := true, Method := "", Headers := none, QueryParams := none,
             RedirectPath := "/coffee_route0" } :=
  createHTTPMatch_path_only ⟨some "/coffee", none, none, none⟩ "/coffee_route0" rfl rfl rfl

/-- C8. A match that is not path-only and whose predicates all have a type is
encoded with `Any = false`, its method verbatim (empty when absent), the
entries `Name:Value` of exactly its `Exact` headers in order, the entries
`Name=Value` of exactly its `Exact` query parameters in order, and the given
redirect path. -/
theorem createHTTPMatch_predicates (m : HTTPRouteMatch) (redirectPath : String)
    (hnot : ¬ (m.Method = none ∧ m.Headers = none ∧ m.QueryParams = none))
    (htyped : typesSet m = true) :
    createHTTPMatch m redirectPath =
      some { Any := false,
             Method := m.Method.getD "",
             Headers := m.Headers.map (fun hs =>
               (hs.filter (fun h => decide (h.Typ = some "Exact"))).map
                 (fun h => h.Name ++ ":" ++ h.Value)),
             QueryParams := m.QueryParams.map (fun ps =>
               (ps.filter (fun p => decide (p.Typ = some "Exact"))).map
                 (fun p => p.Name ++ "=" ++ p.Value)),
             RedirectPath := redirectPath } :=
  createHTTPMatch_of_predicates m redirectPath hnot htyped

/-- C8, at a `GET` match with an exact and a regular-expression header and an
exact query parameter. -/
theorem createHTTPMatch_predicates_witness :
    createHTTPMatch
      ⟨some "/tea",
       some [⟨some "Exact", "X-Id", "42"⟩, ⟨some "RegularExpression", "X-Re", "a.*"⟩],
       some [⟨some "Exact", "q", "a=b"⟩], some "GET"⟩ "/tea_route1" =
      some { Any := false, Method := "GET", Headers := some ["X-Id:42"],
             QueryParams := some ["q=a=b"], RedirectPath := "/tea_route1" } :=
  (createHTTPMatch_predicates
    ⟨some "/tea",
     some [⟨some "Exact", "X-Id", "42"⟩, ⟨some "RegularExpression", "X-Re", "a.*"⟩],
     some [⟨some "Exact", "q", "a=b"⟩], some "GET"⟩ "/tea_route1"
    (by decide) (by decide)).trans (by decide)

/-! ## Recovering name and value from a serialised entry -/

theorem cutAt_append_sep (sep : Char) (before after : List Char) (h : sep ∉ before) :
    cutAt sep (before ++ sep :: after) = some (before, after) := by
  induction before with
  | nil => simp [cutAt]
  | cons c cs ih =>
    simp only [List.mem_cons, not_or] at h
    have hc : c ≠ sep := fun e => h.1 e.symm
    simp [cutAt, hc, ih h.2]

theorem cutAt_none (sep : Char) (s : List Char) (h : sep ∉ s) : cutAt sep s = none := by
  induction s with
  | nil => rfl
  | cons c cs ih =>
    simp only [List.mem_cons, not_or] at h
    have hc : c ≠ sep := fun e => h.1 e.symm
    simp [cutAt, hc, ih h.2]

theorem utf8ByteSize_pos_of_mem (s : String) (c : Char) (h : c ∈ s.data) :
    0 < s.utf8ByteSize := by
  obtain ⟨l⟩ := s
  cases l with
  | nil => simp at h
  | cons x xs =>
    simp only [String.utf8ByteSize, String.utf8ByteSize.go]
    have := Char.utf8Size_pos x
    omega

/-- Splitting `name ++ sep ++ value` into at most two pieces gives back the
pair whenever the name is free of the separator. -/
theorem SplitN_two_of_name_clean (name value : String) (sep : Char) (h : sep ∉ name.data) :
    SplitN (name ++ String.singleton sep ++ value) sep 2 = [name, value] := by
  have hpos : 0 < (name ++ String.singleton sep ++ value).utf8ByteSize :=
    utf8ByteSize_pos_of_mem _ sep (by simp [String.data_append, String.singleton])
  have hdata : (name ++ String.singleton sep ++ value).data = name.data ++ sep :: value.data := by
    simp [String.data_append, String.singleton]
  have hn : ¬ ((2 : Int) > ((name ++ String.singleton sep ++ value).utf8ByteSize : Int) + 1) := by
    omega
  simp only [SplitN, hdata]
  simp [hn, genSplitLoop, cutAt_append_sep sep _ _ h]

/-- The round trip of a query parameter holds for every name without `=`. -/
theorem createQueryParamKeyValString_roundtrip_of_clean_name (p : HTTPQueryParamMatch)
    (h : '=' ∉ p.Name.data) :
    SplitN (createQueryParamKeyValString p) '=' 2 = [p.Name, p.Value] :=
  SplitN_two_of_name_clean p.Name p.Value '=' h

/-- Splitting `name ++ sep ++ value` at every separator gives back the pair
whenever neither part holds the separator. -/
theorem Split_of_clean (name value : String) (sep : Char) (hn : sep ∉ name.data)
    (hv : sep ∉ value.data) :
    Split (name ++ String.singleton sep ++ value) sep = [name, value] := by
  have hpos : 0 < (name ++ String.singleton sep ++ value).utf8ByteSize :=
    utf8ByteSize_pos_of_mem _ sep (by simp [String.data_append, String.singleton])
  have hdata : (name ++ String.singleton sep ++ value).data = name.data ++ sep :: value.data := by
    simp [String.data_append, String.singleton]
  have hcount : (name.data ++ sep :: value.data).count sep = 1 := by
    simp [List.count_append, List.count_eq_zero_of_not_mem hn, List.count_eq_zero_of_not_mem hv]
  have hle : ¬ (((name ++ String.singleton sep ++ value).utf8ByteSize : Int) + 1 < 2) := by
    omega
  simp only [Split, SplitN, hdata, hcount]
  simp [hle, genSplitLoop, cutAt_append_sep sep _ _ hn, cutAt_none sep _ hv]

/-- The round trip of a header holds when neither name nor value holds `:`. -/
theorem createHeaderKeyValString_roundtrip_of_clean (h : HTTPHeaderMatch)
    (hn : ':' ∉ h.Name.data) (hv : ':' ∉ h.Value.data) :
    Split (createHeaderKeyValString h) ':' = [h.Name, h.Value] :=
  Split_of_clean h.Name h.Value ':' hn hv

/-- C9. The query parameter of the specification's example splits back into
its name and value, but a parameter whose name holds `=` does not:
`("a=b", "c")` serialises to `a=b=c`, which `SplitN(_, "=", 2)` splits into
`("a", "b=c")`. -/
theorem createQueryParamKeyValString_split_delimiter_in_name :
    SplitN (createQueryParamKeyValString ⟨some "Exact", "q", "a=b"⟩) '=' 2 = ["q", "a=b"] ∧
    createQueryParamKeyValString ⟨some "Exact", "a=b", "c"⟩ = "a=b=c" ∧
    SplitN (createQueryParamKeyValString ⟨some "Exact", "a=b", "c"⟩) '=' 2 = ["a", "b=c"] ∧
    SplitN (createQueryParamKeyValString ⟨some "Exact", "a=b", "c"⟩) '=' 2 ≠ ["a=b", "c"] := by
  decide

/-- C10. A header whose value holds `:` is not recovered by `strings.Split`:
`("X-Forwarded-Host", "example.com:8080")` serialises to
`X-Forwarded-Host:example.com:8080`, which splits into three pieces. -/
theorem createHeaderKeyValString_split_delimiter_in_value :
    createHeaderKeyValString ⟨some "Exact", "X-Forwarded-Host", "example.com:8080"⟩ =
      "X-Forwarded-Host:example.com:8080" ∧
    Split (createHeaderKeyValString ⟨some "Exact", "X-Forwarded-Host", "example.com:8080"⟩) ':' =
      ["X-Forwarded-Host", "example.com", "8080"] ∧
    Split (createHeaderKeyValString ⟨some "Exact", "X-Forwarded-Host", "example.com:8080"⟩) ':' ≠
      ["X-Forwarded-Host", "example.com:8080"] := by
  decide

/-! ## The loops of `generate` in closed form -/

theorem goIndex_of_inRange (r : Route) (h : ruleInRange r) :
    ∃ rule, goIndex r.Source.Spec.Rules r.RuleIdx = some rule := by
  obtain ⟨h0, h1⟩ := h
  have hlt : r.RuleIdx.toNat < r.Source.Spec.Rules.length := by omega
  refine ⟨r.Source.Spec.Rules.get ⟨_, hlt⟩, ?_⟩
  have : ¬ r.RuleIdx < 0 := by omega
  simp [goIndex, this, List.get?_eq_get hlt]

theorem createHTTPMatch_of_typesSet (m : HTTPRouteMatch) (redirectPath : String)
    (h : typesSet m = true) :
    createHTTPMatch m redirectPath = some (encodeMatch m redirectPath) := by
  unfold encodeMatch
  split
  · rename_i hp
    exact createHTTPMatch_of_path_only m redirectPath hp.1 hp.2.1 hp.2.2
  · rename_i hp
    exact createHTTPMatch_of_predicates m redirectPath hp h

theorem generateRoutes_eq (path : String) (serviceStore : ServiceStore) (rs : List Route)
    (k : Nat) (st : GenState) (ms : List httpMatch)
    (h : rs.all routeWellFormed = true) :
    generateRoutes path serviceStore rs k st ms =
      some ({ locs := st.locs ++ (rs.enumFrom k).map (fun ir =>
                generateMatchLocation (createPathForMatch path ir.1)
                  (resolveRoute serviceStore ir.2).1),
              warnings := st.warnings ++ rs.flatMap (routeWarning serviceStore) },
            ms ++ (rs.enumFrom k).map (fun ir =>
              encodeMatch ir.2.GetMatch (createPathForMatch path ir.1))) := by
  induction rs generalizing k st ms with
  | nil => simp [generateRoutes]
  | cons r rest ih =>
    simp only [List.all_cons, Bool.and_eq_true] at h
    obtain ⟨hr, hrest⟩ := h
    simp only [routeWellFormed, Bool.and_eq_true, decide_eq_true_eq] at hr
    obtain ⟨rule, hrule⟩ := goIndex_of_inRange r hr.1
    have hres : resolveRoute serviceStore r =
        getBackendAddress rule.BackendRefs r.Source.Namespace serviceStore := by
      simp [resolveRoute, routeRefs, hrule]
    have hw : routeWarning serviceStore r =
        match (getBackendAddress rule.BackendRefs r.Source.Namespace serviceStore).2 with
        | some e => [(r.Source, e.Error)]
        | none => [] := by
      simp [routeWarning, hres]
    simp only [generateRoutes, hrule, createHTTPMatch_of_typesSet _ _ hr.2, ih _ _ _ hrest,
      List.enumFrom_cons, List.map_cons, List.flatMap_cons, hres, hw]
    cases hgba : (getBackendAddress rule.BackendRefs r.Source.Namespace serviceStore).2 <;>
      simp [Warnings.AddWarning, List.append_assoc]

theorem generateGroups_eq (serviceStore : ServiceStore) (gs : List PathRouteGroup)
    (st : GenState)
    (h : gs.all (fun g => g.Routes.all routeWellFormed) = true) :
    generateGroups serviceStore gs st =
      some { locs := st.locs ++ gs.flatMap (groupLocations serviceStore),
             warnings := st.warnings ++
               gs.flatMap (fun g => g.Routes.flatMap (routeWarning serviceStore)) } := by
  induction gs generalizing st with
  | nil => simp [generateGroups]
  | cons g rest ih =>
    simp only [List.all_cons, Bool.and_eq_true] at h
    obtain ⟨hg, hrest⟩ := h
    simp only [generateGroups, generateRoutes_eq _ _ _ _ _ _ hg, List.nil_append]
    have hlen : (List.map (fun ir => encodeMatch ir.2.GetMatch (createPathForMatch g.Path ir.1))
        (List.enumFrom 0 g.Routes)).length = g.Routes.length := by simp
    by_cases hpos : g.Routes.length > 0
    · simp [hlen, hpos, jsonMarshal, ih _ hrest, groupLocations, groupInternal, groupPublic,
        groupMatches, List.enum, List.append_assoc]
    · simp [hlen, hpos, ih _ hrest, groupLocations, groupInternal, List.enum, List.append_assoc]

theorem generate_eq (host : Host) (serviceStore : ServiceStore)
    (h : hostWellFormed host = true) :
    generate host serviceStore =
      some ({ ServerName := host.Value,
              Locations := host.PathRouteGroups.flatMap (groupLocations serviceStore) },
            host.PathRouteGroups.flatMap
              (fun g => g.Routes.flatMap (routeWarning serviceStore))) := by
  simp [generate, generateGroups_eq _ _ _ h, newWarnings]

/-! ## The proxy target of an internal location -/

theorem digitChar_ne_k (d : Nat) (h : d < 10) : Nat.digitChar d ≠ 'k' := by
  interval_cases d <;> decide

theorem fmtNat_data_last (n : Nat) :
    ∃ init, (fmtNat n).data = init ++ [Nat.digitChar (n % 10)] := by
  refine ⟨(if n / 10 = 0 then [] else decimalDigitsRev n (n / 10)).reverse, ?_⟩
  simp [fmtNat, decimalDigitsRev]

theorem fmtInt_data_last (p : Int) :
    ∃ init d, d < 10 ∧ (fmtInt p).data = init ++ [Nat.digitChar d] := by
  cases p with
  | ofNat n =>
    obtain ⟨init, h⟩ := fmtNat_data_last n
    exact ⟨init, n % 10, Nat.mod_lt _ (by decide), h⟩
  | negSucc n =>
    obtain ⟨init, h⟩ := fmtNat_data_last (n + 1)
    refine ⟨'-' :: init, (n + 1) % 10, Nat.mod_lt _ (by decide), ?_⟩
    simp [fmtInt, String.data_append, h]

theorem resolved_address_ne (a : String) (p : Int) :
    a ++ ":" ++ fmtInt p ≠ "" ∧ a ++ ":" ++ fmtInt p ≠ nginx502Server := by
  obtain ⟨init, d, hd, h⟩ := fmtInt_data_last p
  have hlast : (a ++ ":" ++ fmtInt p).data.getLast? = some (Nat.digitChar d) := by
    rw [String.data_append, h, ← List.append_assoc, List.getLast?_concat]
  constructor
  · intro e
    rw [e] at hlast
    simp at hlast
  · intro e
    rw [e] at hlast
    have hk : nginx502Server.data.getLast? = some 'k' := by decide
    rw [hk] at hlast
    exact digitChar_ne_k d hd (Option.some.inj hlast).symm

theorem http_prefix_cancel (x y : String) (h : "http://" ++ x = "http://" ++ y) : x = y := by
  have := congrArg String.data h
  simp only [String.data_append, List.append_cancel_left_eq] at this
  exact String.ext this

/-- The result of `getBackendAddress` is either the empty address with an
error, or an address ending in `:port` with no error. -/
theorem getBackendAddress_shape (refs : List HTTPBackendRef) (parentNS : String)
    (serviceStore : ServiceStore) :
    (∃ e, getBackendAddress refs parentNS serviceStore = ("", some e)) ∨
    (∃ a p, getBackendAddress refs parentNS serviceStore = (a ++ ":" ++ fmtInt p, none)) := by
  cases refs with
  | nil => exact Or.inl ⟨_, rfl⟩
  | cons first rest =>
    by_cases hkind : kindSupported first.BackendRef
    · cases hres : serviceStore.Resolve (refKey first.BackendRef parentNS) with
      | error err =>
        exact Or.inl ⟨_, getBackendAddress_unresolved first rest parentNS serviceStore err hkind hres⟩
      | ok a =>
        cases hport : first.BackendRef.Port with
        | none =>
          exact Or.inl ⟨_, getBackendAddress_port_nil first rest parentNS serviceStore a hkind hres hport⟩
        | some p =>
          exact Or.inr ⟨a, p,
            getBackendAddress_resolved first rest parentNS serviceStore a p hkind hres hport⟩
    · obtain ⟨kind, hK, hne⟩ := kind_of_not_supported _ hkind
      exact Or.inl ⟨_, getBackendAddress_unsupported first rest parentNS serviceStore kind hK hne⟩

/-- The proxy target built from a resolution result is the fallback exactly
when the resolution failed, and `http://` followed by the address otherwise. -/
theorem generateProxyPass_of_resolution (refs : List HTTPBackendRef) (parentNS : String)
    (serviceStore : ServiceStore) :
    (generateProxyPass (getBackendAddress refs parentNS serviceStore).1 =
        "http://unix:/var/lib/nginx/nginx-502-server.sock" ↔
      (getBackendAddress refs parentNS serviceStore).2 ≠ none) ∧
    ((getBackendAddress refs parentNS serviceStore).2 = none →
      generateProxyPass (getBackendAddress refs parentNS serviceStore).1 =
        "http://" ++ (getBackendAddress refs parentNS serviceStore).1) := by
  rcases getBackendAddress_shape refs parentNS serviceStore with ⟨e, h⟩ | ⟨a, p, h⟩
  · rw [h]
    have hpp : generateProxyPass "" = "http://unix:/var/lib/nginx/nginx-502-server.sock" := by
      decide
    exact ⟨⟨fun _ => by simp, fun _ => hpp⟩, fun hn => by simp at hn⟩
  · rw [h]
    obtain ⟨hne, hne502⟩ := resolved_address_ne a p
    have hpp : generateProxyPass (a ++ ":" ++ fmtInt p) = "http://" ++ (a ++ ":" ++ fmtInt p) := by
      simp only [generateProxyPass, hne, if_false]
    refine ⟨⟨fun heq => ?_, fun hn => absurd rfl hn⟩, fun _ => hpp⟩
    exfalso
    rw [hpp] at heq
    exact hne502 (http_prefix_cancel _ nginx502Server heq)

theorem groupInternal_length (serviceStore : ServiceStore) (g : PathRouteGroup) :
    (groupInternal serviceStore g).length = g.Routes.length := by
  simp [groupInternal]

theorem groupMatches_length (g : PathRouteGroup) :
    (groupMatches g).length = g.Routes.length := by
  simp [groupMatches]

theorem groupInternal_getElem? (serviceStore : ServiceStore) (g : PathRouteGroup) (i : Nat)
    (hi : i < g.Routes.length) :
    (groupInternal serviceStore g)[i]? =
      some (generateMatchLocation (createPathForMatch g.Path i)
        (resolveRoute serviceStore (g.Routes.get ⟨i, hi⟩)).1) := by
  simp [groupInternal, List.getElem?_enum, List.getElem?_eq_getElem hi]

theorem groupMatches_getElem? (g : PathRouteGroup) (i : Nat) (hi : i < g.Routes.length) :
    (groupMatches g)[i]? =
      some (encodeMatch (g.Routes.get ⟨i, hi⟩).GetMatch (createPathForMatch g.Path i)) := by
  simp [groupMatches, List.getElem?_enum, List.getElem?_eq_getElem hi]

theorem groupLocations_getElem? (serviceStore : ServiceStore) (g : PathRouteGroup) (i : Nat)
    (hi : i < g.Routes.length) :
    (groupLocations serviceStore g)[i]? =
      some (generateMatchLocation (createPathForMatch g.Path i)
        (resolveRoute serviceStore (g.Routes.get ⟨i, hi⟩)).1) := by
  unfold groupLocations
  rw [List.getElem?_append_left (by rw [groupInternal_length]; exact hi)]
  exact groupInternal_getElem? serviceStore g i hi

theorem groupLocations_length (serviceStore : ServiceStore) (g : PathRouteGroup) :
    (groupLocations serviceStore g).length =
      g.Routes.length + (if g.Routes.length > 0 then 1 else 0) := by
  unfold groupLocations
  rw [List.length_append, groupInternal_length]
  split <;> rfl

theorem encodeMatch_redirectPath (m : HTTPRouteMatch) (redirectPath : String) :
    (encodeMatch m redirectPath).RedirectPath = redirectPath := by
  unfold encodeMatch; split <;> rfl

theorem jsonMarshal_ne_empty (ms : List httpMatch) : (jsonMarshal ms).1 ≠ "" := by
  intro h
  have := congrArg String.data h
  simp [jsonMarshal] at this

theorem routeWellFormed_of_mem (host : Host) (h : hostWellFormed host = true)
    (g : PathRouteGroup) (hg : g ∈ host.PathRouteGroups) (i : Nat) (hi : i < g.Routes.length) :
    ruleInRange (g.Routes.get ⟨i, hi⟩) ∧ typesSet (g.Routes.get ⟨i, hi⟩).GetMatch = true := by
  simp only [hostWellFormed, List.all_eq_true] at h
  have := h g hg (g.Routes.get ⟨i, hi⟩) (List.get_mem _ _ _)
  simpa [routeWellFormed] using this


theorem warnings_eq_filterMap (serviceStore : ServiceStore) (gs : List PathRouteGroup) :
    gs.flatMap (fun g => g.Routes.flatMap (routeWarning serviceStore)) =
      (gs.flatMap (fun g => g.Routes)).filterMap
        (fun r => (resolveRoute serviceStore r).2.map (fun e => (r.Source, e.Error))) := by
  have hroutes : ∀ rs : List Route, rs.flatMap (routeWarning serviceStore) =
      rs.filterMap (fun r => (resolveRoute serviceStore r).2.map (fun e => (r.Source, e.Error))) := by
    intro rs
    induction rs with
    | nil => rfl
    | cons r rest ih =>
      rw [List.flatMap_cons, ih, List.filterMap_cons]
      unfold routeWarning
      cases (resolveRoute serviceStore r).2 <;> rfl
  induction gs with
  | nil => rfl
  | cons g rest ih =>
    rw [List.flatMap_cons, List.flatMap_cons, List.filterMap_append, ih, hroutes]

theorem forObject_filterMap (serviceStore : ServiceStore) (rs : List Route) (obj : HTTPRoute) :
    Warnings.forObject
        (rs.filterMap (fun r => (resolveRoute serviceStore r).2.map (fun e => (r.Source, e.Error))))
        obj =
      (rs.filter (fun r => decide (r.Source = obj))).filterMap
        (fun r => (resolveRoute serviceStore r).2.map (fun e => e.Error)) := by
  induction rs with
  | nil => rfl
  | cons r rest ih =>
    unfold Warnings.forObject at ih ⊢
    by_cases hsrc : r.Source = obj <;>
      cases hres : (resolveRoute serviceStore r).2 <;>
      simp [List.filterMap_cons, List.filter_cons, hsrc, hres, ih]

theorem groupLocations_getElem?_of_le (serviceStore other : ServiceStore) (g : PathRouteGroup)
    (j : Nat) (hj : g.Routes.length ≤ j) :
    (groupLocations other g)[j]? = (groupLocations serviceStore g)[j]? := by
  unfold groupLocations
  rw [List.getElem?_append_right (by rw [groupInternal_length]; exact hj),
    List.getElem?_append_right (by rw [groupInternal_length]; exact hj),
    groupInternal_length, groupInternal_length]

/-- C4, amended. For a host whose rule indices are in range and whose match
predicates have their types set, `generate` returns; the internal location of
every route carries the fallback target exactly when `getBackendAddress` failed
for that route and `http://` followed by the resolved address otherwise; the
warnings are the (source, error text) pairs of exactly the failed routes, in
order; and under any other resolver the number of locations is the same, every
public location is the same, and the internal location of a route is the same
whenever the resolution of that route is the same. -/
theorem generate_resolution_failures (host : Host) (serviceStore : ServiceStore)
    (h : hostWellFormed host = true) :
    ∃ srv w, generate host serviceStore = some (srv, w) ∧
      srv.Locations = host.PathRouteGroups.flatMap (groupLocations serviceStore) ∧
      (∀ g ∈ host.PathRouteGroups, ∀ i (hi : i < g.Routes.length),
        ∃ loc, (groupLocations serviceStore g)[i]? = some loc ∧
          loc.Internal = true ∧
          loc.Path = createPathForMatch g.Path i ∧
          (loc.ProxyPass = "http://unix:/var/lib/nginx/nginx-502-server.sock" ↔
            (resolveRoute serviceStore (g.Routes.get ⟨i, hi⟩)).2 ≠ none) ∧
          ((resolveRoute serviceStore (g.Routes.get ⟨i, hi⟩)).2 = none →
            loc.ProxyPass = "http://" ++ (resolveRoute serviceStore (g.Routes.get ⟨i, hi⟩)).1)) ∧
      w = (host.PathRouteGroups.flatMap (fun g => g.Routes)).filterMap
        (fun r => (resolveRoute serviceStore r).2.map (fun e => (r.Source, e.Error))) ∧
      (∀ obj : HTTPRoute, w.forObject obj =
        ((host.PathRouteGroups.flatMap (fun g => g.Routes)).filter
          (fun r => decide (r.Source = obj))).filterMap
          (fun r => (resolveRoute serviceStore r).2.map (fun e => e.Error))) ∧
      (∀ other : ServiceStore, ∃ srv' w', generate host other = some (srv', w') ∧
        srv'.Locations = host.PathRouteGroups.flatMap (groupLocations other) ∧
        srv'.Locations.length = srv.Locations.length ∧
        ∀ g ∈ host.PathRouteGroups,
          (groupLocations other g).length = (groupLocations serviceStore g).length ∧
          (∀ j, g.Routes.length ≤ j →
            (groupLocations other g)[j]? = (groupLocations serviceStore g)[j]?) ∧
          (∀ i (hi : i < g.Routes.length),
            resolveRoute other (g.Routes.get ⟨i, hi⟩) =
              resolveRoute serviceStore (g.Routes.get ⟨i, hi⟩) →
            (groupLocations other g)[i]? = (groupLocations serviceStore g)[i]?)) := by
  refine ⟨_, _, generate_eq host serviceStore h, rfl, ?_, warnings_eq_filterMap _ _, ?_, ?_⟩
  · intro g _ i hi
    refine ⟨_, groupLocations_getElem? serviceStore g i hi, rfl, rfl, ?_⟩
    exact generateProxyPass_of_resolution _ _ _
  · intro obj
    rw [warnings_eq_filterMap]
    exact forObject_filterMap serviceStore _ obj
  · intro other
    refine ⟨_, _, generate_eq host other h, rfl, ?_, ?_⟩
    · simp only [List.length_flatMap]
      congr 1
      apply List.map_congr_left
      intro g _
      simp [groupLocations_length]
    · intro g _
      refine ⟨by rw [groupLocations_length, groupLocations_length],
        fun j hj => groupLocations_getElem?_of_le serviceStore other g j hj, ?_⟩
      intro i hi hsame
      rw [groupLocations_getElem? other g i hi, groupLocations_getElem? serviceStore g i hi, hsame]

/-- C5, amended. For a host whose rule indices are in range and whose match
predicates have their types set, `generate` returns a server named
`host.Value` whose locations are the concatenation, group by group in input
order, of nothing for a group without routes and otherwise of one internal
location per route (path `groupPath_route<i>`) followed by one public location
at the group path, not internal, with empty proxy target and the serialised
match list; their number is the sum over the groups of `n + (1 if n > 0)`. -/
theorem generate_shape (host : Host) (serviceStore : ServiceStore)
    (h : hostWellFormed host = true) :
    ∃ srv w, generate host serviceStore = some (srv, w) ∧
      srv.ServerName = host.Value ∧
      srv.Locations = (host.PathRouteGroups.map (groupLocations serviceStore)).flatten ∧
      (∀ g : PathRouteGroup,
        (g.Routes = [] → groupLocations serviceStore g = []) ∧
        (g.Routes ≠ [] → ∃ internals pub,
          groupLocations serviceStore g = internals ++ [pub] ∧
          internals.length = g.Routes.length ∧
          (∀ i loc, internals[i]? = some loc →
            loc.Internal = true ∧ loc.Path = g.Path ++ "_route" ++ fmtNat i) ∧
          pub.Path = g.Path ∧ pub.Internal = false ∧ pub.ProxyPass = "" ∧
          pub.HTTPMatchVar ≠ "" ∧
          ∃ ms : List httpMatch, ms.length = g.Routes.length ∧
            pub.HTTPMatchVar = (jsonMarshal ms).1)) ∧
      srv.Locations.length =
        (host.PathRouteGroups.map
          (fun g => g.Routes.length + (if g.Routes.length > 0 then 1 else 0))).sum := by
  refine ⟨_, _, generate_eq host serviceStore h, rfl, List.flatMap_def _ _, ?_, ?_⟩
  · intro g
    constructor
    · intro hnil
      simp [groupLocations, groupInternal, hnil]
    · intro hne
      have hpos : g.Routes.length > 0 := List.length_pos.mpr hne
      refine ⟨groupInternal serviceStore g, groupPublic g, ?_, groupInternal_length _ _, ?_,
        rfl, rfl, rfl, jsonMarshal_ne_empty _, groupMatches g, groupMatches_length g, rfl⟩
      · simp [groupLocations, hpos]
      · intro i loc hloc
        have hi : i < g.Routes.length := by
          have := (List.getElem?_eq_some.mp hloc).1
          rwa [groupInternal_length] at this
        rw [groupInternal_getElem? serviceStore g i hi] at hloc
        cases hloc
        exact ⟨rfl, rfl⟩
  · simp only [List.length_flatMap]
    congr 1
    apply List.map_congr_left
    intro g _
    simp [groupLocations_length]

/-- C6, amended. For a host whose rule indices are in range and whose match
predicates have their types set, the public location of every group with a
route carries the serialisation of a match list with one descriptor per route,
in route order, the i-th being `createHTTPMatch` of the i-th route's match and
synthetic path; its `RedirectPath` is the path of the i-th internal location of
the group, and every `RedirectPath` of the list is the path of an internal
location of the returned server, for every resolver. -/
theorem generate_match_list (host : Host) (serviceStore : ServiceStore)
    (h : hostWellFormed host = true) :
    ∃ srv w, generate host serviceStore = some (srv, w) ∧
      srv.Locations = host.PathRouteGroups.flatMap (groupLocations serviceStore) ∧
      ∀ g ∈ host.PathRouteGroups, g.Routes ≠ [] →
        ∃ (internals : List location) (ms : List httpMatch),
          groupLocations serviceStore g = internals ++
            [{ Path := g.Path, ProxyPass := "", HTTPMatchVar := (jsonMarshal ms).1,
               Internal := false }] ∧
          internals.length = g.Routes.length ∧
          ms.length = g.Routes.length ∧
          (∀ i (hi : i < g.Routes.length), ∃ d loc,
            ms[i]? = some d ∧ internals[i]? = some loc ∧
            createHTTPMatch (g.Routes.get ⟨i, hi⟩).GetMatch (createPathForMatch g.Path i) =
              some d ∧
            d.RedirectPath = loc.Path ∧ loc.Internal = true) ∧
          (∀ d ∈ ms, ∃ loc ∈ srv.Locations, loc.Internal = true ∧ loc.Path = d.RedirectPath) := by
  refine ⟨_, _, generate_eq host serviceStore h, rfl, ?_⟩
  intro g hg hne
  have hpos : g.Routes.length > 0 := List.length_pos.mpr hne
  have hperRoute : ∀ i (hi : i < g.Routes.length), ∃ d loc,
      (groupMatches g)[i]? = some d ∧ (groupInternal serviceStore g)[i]? = some loc ∧
      createHTTPMatch (g.Routes.get ⟨i, hi⟩).GetMatch (createPathForMatch g.Path i) = some d ∧
      d.RedirectPath = loc.Path ∧ loc.Internal = true := by
    intro i hi
    refine ⟨_, _, groupMatches_getElem? g i hi, groupInternal_getElem? serviceStore g i hi,
      createHTTPMatch_of_typesSet _ _ (routeWellFormed_of_mem host h g hg i hi).2, ?_, rfl⟩
    rw [encodeMatch_redirectPath]
    rfl
  refine ⟨groupInternal serviceStore g, groupMatches g, ?_, groupInternal_length _ _,
    groupMatches_length g, hperRoute, ?_⟩
  · simp [groupLocations, hpos, groupPublic]
  · intro d hd
    obtain ⟨i, hi, hdi⟩ := List.getElem_of_mem hd
    have hi' : i < g.Routes.length := by rwa [groupMatches_length] at hi
    obtain ⟨d', loc, hd', hloc, _, hpath, hint⟩ := hperRoute i hi'
    have hdd : d' = d := by
      rw [List.getElem?_eq_getElem hi, hdi] at hd'
      exact (Option.some.inj hd').symm
    subst hdd
    refine ⟨loc, ?_, hint, hpath.symm⟩
    simp only [List.mem_flatMap]
    refine ⟨g, hg, ?_⟩
    unfold groupLocations
    exact List.mem_append_left _ (List.getElem?_mem hloc)

/-- C4, as stated, fails: for a route whose rule index is out of range the
generator panics and emits no location at all. -/
theorem generate_rule_out_of_range :
    ruleOutOfRangeHost.PathRouteGroups.length = 1 ∧
    generate ruleOutOfRangeHost exampleStore = none := by
  decide

/-- C4 amended, at the host with three routes of which the second cannot be
resolved: one warning, for that route's source, and six locations. -/
theorem generate_resolution_failures_witness :
    hostWellFormed exampleHost = true ∧
    ∃ srv w, generate exampleHost exampleStore = some (srv, w) ∧
      srv.Locations.length = 6 ∧
      w = [(exampleSource "coffee-lost" "missing" (some 80),
            "service ns/missing cannot be resolved: service not found")] :=
  ⟨by decide, by
    obtain ⟨srv, w, hgen, hlocs, _, hw, _, _⟩ :=
      generate_resolution_failures exampleHost exampleStore (by decide)
    exact ⟨srv, w, hgen, by rw [hlocs]; decide, hw.trans (by decide)⟩⟩

/-- C5, as stated, fails: with every rule index in range, a header predicate
without a type makes the generator panic, so no server is returned. -/
theorem generate_untyped_header :
    (∀ g ∈ untypedHeaderHost.PathRouteGroups, ∀ r ∈ g.Routes, ruleInRange r) ∧
    generate untypedHeaderHost exampleStore = none := by
  decide

/-- C5 amended, at the host with groups of three, zero and one routes. -/
theorem generate_shape_witness :
    hostWellFormed exampleHost = true ∧
    ∃ srv w, generate exampleHost exampleStore = some (srv, w) ∧
      srv.ServerName = "cafe.example.com" ∧
      srv.Locations.length = (3 + 1) + 0 + (1 + 1) :=
  ⟨by decide, by
    obtain ⟨srv, w, hgen, hname, _, _, hlen⟩ :=
      generate_shape exampleHost exampleStore (by decide)
    exact ⟨srv, w, hgen, hname, hlen.trans (by decide)⟩⟩

/-- C6, as stated, fails: a group with one route whose query-parameter
predicate has no type makes the generator panic, so there is no public location
and no match list. -/
theorem generate_untyped_param :
    (∀ g ∈ untypedParamHost.PathRouteGroups, g.Routes ≠ []) ∧
    generate untypedParamHost exampleStore = none := by
  decide

/-- C6 amended, at the host with three routes of which the second cannot be
resolved. -/
theorem generate_match_list_witness :
    hostWellFormed exampleHost = true ∧
    ∃ srv w, generate exampleHost exampleStore = some (srv, w) ∧
      srv.Locations = exampleHost.PathRouteGroups.flatMap (groupLocations exampleStore) :=
  ⟨by decide, by
    obtain ⟨srv, w, hgen, hlocs, _⟩ :=
      generate_match_list exampleHost exampleStore (by decide)
    exact ⟨srv, w, hgen, hlocs⟩⟩


/-! ## Synthetic paths -/

theorem digitChar_toNat (d : Nat) (h : d < 10) : (Nat.digitChar d).toNat - 48 = d := by
  interval_cases d <;> decide

theorem digitChar_isDigit (d : Nat) (h : d < 10) : (Nat.digitChar d).isDigit = true := by
  interval_cases d <;> decide

theorem decimalValueRev_digits (fuel n : Nat) (h : n < fuel) :
    decimalValueRev (decimalDigitsRev fuel n) = n := by
  induction fuel generalizing n with
  | zero => omega
  | succ fuel ih =>
    simp only [decimalDigitsRev, decimalValueRev, digitChar_toNat _ (Nat.mod_lt n (by decide))]
    by_cases hz : n / 10 = 0
    · simp only [hz, if_true, decimalValueRev]
      omega
    · simp only [hz, if_false]
      rw [ih (n / 10) (by omega)]
      omega

theorem decimalDigitsRev_isDigit (fuel n : Nat) :
    ∀ c ∈ decimalDigitsRev fuel n, c.isDigit = true := by
  induction fuel generalizing n with
  | zero => simp [decimalDigitsRev]
  | succ fuel ih =>
    intro c hc
    simp only [decimalDigitsRev, List.mem_cons] at hc
    rcases hc with rfl | hc
    · exact digitChar_isDigit _ (Nat.mod_lt n (by decide))
    · by_cases hz : n / 10 = 0
      · simp [hz] at hc
      · simp only [hz, if_false] at hc
        exact ih _ c hc

theorem fmtNat_injective : Function.Injective fmtNat := by
  intro n m h
  have hdata := congrArg String.data h
  simp only [fmtNat] at hdata
  have hrev := List.reverse_injective hdata
  have hn := decimalValueRev_digits (n + 1) n (Nat.lt_succ_self n)
  have hm := decimalValueRev_digits (m + 1) m (Nat.lt_succ_self m)
  rw [hrev] at hn
  omega

theorem string_append_left_cancel (p x y : String) (h : p ++ x = p ++ y) : x = y := by
  have := congrArg String.data h
  simp only [String.data_append, List.append_cancel_left_eq] at this
  exact String.ext this

theorem createPathForMatch_index_injective (path : String) :
    Function.Injective (createPathForMatch path) := by
  intro i j h
  unfold createPathForMatch at h
  rw [String.append_assoc, String.append_assoc] at h
  exact fmtNat_injective
    (string_append_left_cancel "_route" _ _ (string_append_left_cancel path _ _ h))

/-- Two lists that start with characters of one class, continue with a
character outside it and are equal have equal parts. -/
theorem prefix_split_unique (P : Char → Bool) (l₁ l₂ r₁ r₂ : List Char) (c₁ c₂ : Char)
    (h₁ : ∀ c ∈ l₁, P c = true) (h₂ : ∀ c ∈ l₂, P c = true)
    (hc₁ : P c₁ = false) (hc₂ : P c₂ = false)
    (h : l₁ ++ c₁ :: r₁ = l₂ ++ c₂ :: r₂) : l₁ = l₂ ∧ r₁ = r₂ := by
  induction l₁ generalizing l₂ with
  | nil =>
    cases l₂ with
    | nil => simp at h; exact ⟨rfl, h.2⟩
    | cons b bs =>
      simp only [List.nil_append, List.cons_append, List.cons.injEq] at h
      have := h₂ b (List.mem_cons_self _ _)
      rw [← h.1, hc₁] at this
      exact absurd this (by decide)
  | cons a as ih =>
    cases l₂ with
    | nil =>
      simp only [List.nil_append, List.cons_append, List.cons.injEq] at h
      have := h₁ a (List.mem_cons_self _ _)
      rw [h.1, hc₂] at this
      exact absurd this (by decide)
    | cons b bs =>
      simp only [List.cons_append, List.cons.injEq] at h
      obtain ⟨hl, hr⟩ := ih bs (fun c hc => h₁ c (List.mem_cons_of_mem _ hc))
        (fun c hc => h₂ c (List.mem_cons_of_mem _ hc)) h.2
      exact ⟨by rw [h.1, hl], hr⟩

theorem createPathForMatch_injective (p q : String) (i j : Nat)
    (h : createPathForMatch p i = createPathForMatch q j) : p = q ∧ i = j := by
  have hdata := congrArg (fun s => s.data.reverse) h
  simp only [createPathForMatch, fmtNat, String.data_append, List.reverse_append,
    List.reverse_reverse] at hdata
  have hroute : "_route".data.reverse = 'e' :: "_rout".data.reverse := by decide
  rw [hroute] at hdata
  simp only [List.cons_append, List.append_assoc] at hdata
  obtain ⟨hd, hr⟩ := prefix_split_unique Char.isDigit _ _ _ _ 'e' 'e'
    (decimalDigitsRev_isDigit _ _) (decimalDigitsRev_isDigit _ _) (by decide) (by decide) hdata
  have hp : p = q := by
    have := List.append_cancel_left hr
    exact String.ext (List.reverse_injective this)
  have hn := decimalValueRev_digits (i + 1) i (Nat.lt_succ_self i)
  have hm := decimalValueRev_digits (j + 1) j (Nat.lt_succ_self j)
  rw [hd] at hn
  exact ⟨hp, by omega⟩


/-! ## When `generate` returns -/

theorem goIndex_none_of_not_inRange (r : Route) (h : ¬ ruleInRange r) :
    goIndex r.Source.Spec.Rules r.RuleIdx = none := by
  unfold ruleInRange at h
  unfold goIndex
  by_cases hneg : r.RuleIdx < 0
  · simp [hneg]
  · have hge : r.Source.Spec.Rules.length ≤ r.RuleIdx.toNat := by omega
    simp only [hneg, if_false]
    exact List.get?_eq_none.mpr hge

theorem collectHeaders_none (hs : List HTTPHeaderMatch) (acc : List String)
    (h : hs.all (fun h => h.Typ.isSome) = false) : collectHeaders hs acc = none := by
  induction hs generalizing acc with
  | nil => simp at h
  | cons x xs ih =>
    cases hx : x.Typ with
    | none => simp [collectHeaders, hx]
    | some t =>
      have hxs : xs.all (fun h => h.Typ.isSome) = false := by
        simpa [List.all_cons, hx] using h
      simp only [collectHeaders, hx]
      exact ih _ hxs

theorem collectParams_none (ps : List HTTPQueryParamMatch) (acc : List String)
    (h : ps.all (fun p => p.Typ.isSome) = false) : collectParams ps acc = none := by
  induction ps generalizing acc with
  | nil => simp at h
  | cons x xs ih =>
    cases hx : x.Typ with
    | none => simp [collectParams, hx]
    | some t =>
      have hxs : xs.all (fun p => p.Typ.isSome) = false := by
        simpa [List.all_cons, hx] using h
      simp only [collectParams, hx]
      exact ih _ hxs

theorem createHTTPMatch_none (m : HTTPRouteMatch) (redirectPath : String)
    (h : typesSet m = false) : createHTTPMatch m redirectPath = none := by
  obtain ⟨path, headers, params, method⟩ := m
  simp only [typesSet, Bool.and_eq_false_iff] at h
  cases headers with
  | none =>
    cases params with
    | none => simp at h
    | some ps =>
      have hp : ps.all (fun p => p.Typ.isSome) = false := by simpa using h
      cases method <;> simp [createHTTPMatch, isPathOnlyMatch, collectParams_none ps [] hp]
  | some hs =>
    by_cases hh : hs.all (fun h => h.Typ.isSome) = true
    · cases params with
      | none => simp [hh] at h
      | some ps =>
        have hp : ps.all (fun p => p.Typ.isSome) = false := by simpa [hh] using h
        cases method <;>
          simp [createHTTPMatch, isPathOnlyMatch, collectParams_none ps [] hp]
    · have hh' : hs.all (fun h => h.Typ.isSome) = false := by simpa using hh
      cases method <;> simp [createHTTPMatch, isPathOnlyMatch, collectHeaders_none hs [] hh']

theorem generateRoutes_none_of_ill_formed (path : String) (serviceStore : ServiceStore)
    (r : Route) (rest : List Route) (k : Nat) (st : GenState) (ms : List httpMatch)
    (h : routeWellFormed r = false) :
    generateRoutes path serviceStore (r :: rest) k st ms = none := by
  simp only [routeWellFormed, Bool.and_eq_false_iff, decide_eq_false_iff_not] at h
  by_cases hr : ruleInRange r
  · have ht : typesSet r.GetMatch = false := by
      rcases h with h | h
      · exact absurd hr h
      · exact h
    obtain ⟨rule, hrule⟩ := goIndex_of_inRange r hr
    simp [generateRoutes, hrule, createHTTPMatch_none _ _ ht]
  · simp [generateRoutes, goIndex_none_of_not_inRange r hr]

theorem wellFormed_of_generateRoutes (path : String) (serviceStore : ServiceStore)
    (rs : List Route) (k : Nat) (st : GenState) (ms : List httpMatch)
    (out : GenState × List httpMatch)
    (h : generateRoutes path serviceStore rs k st ms = some out) :
    rs.all routeWellFormed = true := by
  induction rs generalizing k st ms with
  | nil => rfl
  | cons r rest ih =>
    by_cases hr : routeWellFormed r = true
    · simp only [List.all_cons, hr, Bool.true_and]
      obtain ⟨hri, hts⟩ : ruleInRange r ∧ typesSet r.GetMatch = true := by
        simpa [routeWellFormed] using hr
      obtain ⟨rule, hrule⟩ := goIndex_of_inRange r hri
      have hm := createHTTPMatch_of_typesSet r.GetMatch (createPathForMatch path k) hts
      simp only [generateRoutes, hrule, hm] at h
      exact ih _ _ _ h
    · have hf : routeWellFormed r = false := by simpa using hr
      rw [generateRoutes_none_of_ill_formed path serviceStore r rest k st ms hf] at h
      exact absurd h (by simp)

theorem wellFormed_of_generateGroups (serviceStore : ServiceStore) (gs : List PathRouteGroup)
    (st out : GenState) (h : generateGroups serviceStore gs st = some out) :
    gs.all (fun g => g.Routes.all routeWellFormed) = true := by
  induction gs generalizing st with
  | nil => rfl
  | cons g rest ih =>
    simp only [generateGroups] at h
    cases hg : generateRoutes g.Path serviceStore g.Routes 0 st [] with
    | none => simp [hg] at h
    | some res =>
      have hwf := wellFormed_of_generateRoutes _ _ _ _ _ _ _ hg
      simp only [List.all_cons, hwf, Bool.true_and]
      simp only [hg] at h
      obtain ⟨st', ms⟩ := res
      by_cases hpos : ms.length > 0
      · simp only [hpos, if_true, jsonMarshal] at h
        exact ih _ h
      · simp only [hpos, if_false] at h
        exact ih _ h

theorem hostWellFormed_of_generate (host : Host) (serviceStore : ServiceStore)
    (out : server × Warnings) (h : generate host serviceStore = some out) :
    hostWellFormed host = true := by
  unfold generate at h
  cases hg : generateGroups serviceStore host.PathRouteGroups
      { locs := [], warnings := newWarnings } with
  | none => simp [hg] at h
  | some st => exact wellFormed_of_generateGroups _ _ _ _ hg

/-- Whatever `generate` returns is the closed form. -/
theorem locations_of_generate (host : Host) (serviceStore : ServiceStore)
    (srv : server) (w : Warnings) (h : generate host serviceStore = some (srv, w)) :
    srv.Locations = host.PathRouteGroups.flatMap (groupLocations serviceStore) := by
  have hwf := hostWellFormed_of_generate host serviceStore _ h
  rw [generate_eq host serviceStore hwf] at h
  cases h
  rfl


theorem groupInternal_paths (serviceStore : ServiceStore) (g : PathRouteGroup) :
    (groupInternal serviceStore g).map (fun l => l.Path) =
      (List.range g.Routes.length).map (createPathForMatch g.Path) := by
  rw [← List.enum_map_fst, List.map_map]
  simp [groupInternal, generateMatchLocation, Function.comp_def]

theorem groupInternal_paths_nodup (serviceStore : ServiceStore) (g : PathRouteGroup) :
    ((groupInternal serviceStore g).map (fun l => l.Path)).Nodup := by
  rw [groupInternal_paths]
  exact (List.nodup_range _).map (createPathForMatch_index_injective g.Path)

theorem groupLocations_paths (serviceStore : ServiceStore) (g : PathRouteGroup) :
    (groupLocations serviceStore g).map (fun l => l.Path) =
      (List.range g.Routes.length).map (createPathForMatch g.Path) ++
        (if g.Routes.length > 0 then [g.Path] else []) := by
  unfold groupLocations
  rw [List.map_append, groupInternal_paths]
  split <;> simp [groupPublic]

theorem mem_groupLocations_paths (serviceStore : ServiceStore) (g : PathRouteGroup) (x : String)
    (h : x ∈ (groupLocations serviceStore g).map (fun l => l.Path)) :
    (∃ i, i < g.Routes.length ∧ x = createPathForMatch g.Path i) ∨ x = g.Path := by
  rw [groupLocations_paths, List.mem_append] at h
  rcases h with h | h
  · obtain ⟨i, hi, rfl⟩ := List.mem_map.mp h
    exact Or.inl ⟨i, List.mem_range.mp hi, rfl⟩
  · split at h
    · exact Or.inr (List.mem_singleton.mp h)
    · simp at h

/-- C11. Within one group path the synthetic paths of distinct route indices
differ; hence the internal locations that `generate` returns for a group, one
per route and placed before the group's public location, have pairwise
distinct paths. -/
theorem createPathForMatch_unique :
    (∀ (path : String) (i j : Nat), i ≠ j →
      createPathForMatch path i ≠ createPathForMatch path j) ∧
    (∀ (host : Host) (serviceStore : ServiceStore) (srv : server) (w : Warnings),
      generate host serviceStore = some (srv, w) →
      srv.Locations = host.PathRouteGroups.flatMap (fun g =>
        groupInternal serviceStore g ++
          (if g.Routes.length > 0 then [groupPublic g] else [])) ∧
      ∀ g ∈ host.PathRouteGroups,
        (groupInternal serviceStore g).length = g.Routes.length ∧
        (∀ loc ∈ groupInternal serviceStore g, loc.Internal = true) ∧
        ((groupInternal serviceStore g).map (fun l => l.Path)).Nodup) := by
  refine ⟨fun path i j hne h => hne (createPathForMatch_index_injective path h), ?_⟩
  intro host serviceStore srv w hgen
  refine ⟨locations_of_generate host serviceStore srv w hgen, ?_⟩
  intro g _
  refine ⟨groupInternal_length _ _, ?_, groupInternal_paths_nodup _ _⟩
  intro loc hloc
  simp only [groupInternal, List.mem_map] at hloc
  obtain ⟨_, _, rfl⟩ := hloc
  rfl

/-- C11, at the indices 1 and 10 of the group `/coffee`, and at the example
host. -/
theorem createPathForMatch_unique_witness :
    createPathForMatch "/coffee" 1 ≠ createPathForMatch "/coffee" 10 ∧
    ∃ srv w, generate exampleHost exampleStore = some (srv, w) ∧
      ∀ g ∈ exampleHost.PathRouteGroups,
        ((groupInternal exampleStore g).map (fun l => l.Path)).Nodup :=
  ⟨createPathForMatch_unique.1 "/coffee" 1 10 (by decide),
   _, _, generate_eq exampleHost exampleStore (by decide),
   fun g hg => ((createPathForMatch_unique.2 exampleHost exampleStore _ _
     (generate_eq exampleHost exampleStore (by decide))).2 g hg).2.2⟩

/-- C20, as stated, fails: the groups `/a` and `/a_route0` have distinct paths,
yet the internal location of the first route of `/a` and the public location of
`/a_route0` share the path `/a_route0`. -/
theorem generate_paths_collide :
    (collidingHost.PathRouteGroups.map (fun g => g.Path)).Nodup ∧
    (generate collidingHost exampleStore).map (fun out => out.1.Locations.map (fun l => l.Path)) =
      some ["/a_route0", "/a", "/a_route0_route0", "/a_route0"] ∧
    ¬ (["/a_route0", "/a", "/a_route0_route0", "/a_route0"] : List String).Nodup := by
  decide

theorem mem_groupLocations_paths_iff (serviceStore : ServiceStore) (g : PathRouteGroup)
    (x : String) :
    x ∈ (groupLocations serviceStore g).map (fun l => l.Path) ↔
      (∃ i, i < g.Routes.length ∧ x = createPathForMatch g.Path i) ∨
      (0 < g.Routes.length ∧ x = g.Path) := by
  rw [groupLocations_paths, List.mem_append]
  constructor
  · rintro (h | h)
    · obtain ⟨i, hi, rfl⟩ := List.mem_map.mp h
      exact Or.inl ⟨i, List.mem_range.mp hi, rfl⟩
    · split at h
      · rename_i hpos
        exact Or.inr ⟨hpos, List.mem_singleton.mp h⟩
      · simp at h
  · rintro (⟨i, hi, rfl⟩ | ⟨hpos, rfl⟩)
    · exact Or.inl (List.mem_map.mpr ⟨i, List.mem_range.mpr hi, rfl⟩)
    · refine Or.inr ?_
      have hgt : g.Routes.length > 0 := hpos
      simp [hgt]

/-- C20, amended. When the group paths are pairwise distinct, all locations of
the server that `generate` returns have pairwise distinct paths exactly when no
path of a group with at least one route is a synthetic path `p_route<i>` of a
route of a group of the host. -/
theorem generate_paths_nodup (host : Host) (serviceStore : ServiceStore)
    (srv : server) (w : Warnings)
    (hgen : generate host serviceStore = some (srv, w))
    (hgroups : (host.PathRouteGroups.map (fun g => g.Path)).Nodup) :
    (srv.Locations.map (fun l => l.Path)).Nodup ↔
      ∀ g ∈ host.PathRouteGroups, 0 < g.Routes.length →
        ∀ g' ∈ host.PathRouteGroups, ∀ i, i < g'.Routes.length →
          g.Path ≠ createPathForMatch g'.Path i := by
  rw [locations_of_generate host serviceStore srv w hgen, List.map_flatMap,
    List.nodup_flatMap]
  constructor
  · rintro ⟨_, hpw⟩ g hg hpos g' hg' i hi heq
    have hpub : g.Path ∈ (groupLocations serviceStore g).map (fun l => l.Path) :=
      (mem_groupLocations_paths_iff serviceStore g _).mpr (Or.inr ⟨hpos, rfl⟩)
    have hint : g.Path ∈ (groupLocations serviceStore g').map (fun l => l.Path) :=
      (mem_groupLocations_paths_iff serviceStore g' _).mpr (Or.inl ⟨i, hi, heq⟩)
    by_cases hsame : g = g'
    · subst hsame
      have hne : g.Path ≠ createPathForMatch g.Path i := by
        intro h
        have hlen := congrArg String.length h
        simp [createPathForMatch, String.length_append] at hlen
        have : ("_route" : String).length = 6 := by decide
        omega
      exact hne heq
    · have hsymm : Symmetric (Function.onFun List.Disjoint
          (fun a : PathRouteGroup => (groupLocations serviceStore a).map (fun l => l.Path))) :=
        fun _ _ h => h.symm
      have hdis := hpw.forall hsymm hg hg' hsame
      exact (List.disjoint_left.mp hdis) hpub hint
  · intro hfresh
    constructor
    · intro g hg
      rw [groupLocations_paths, List.nodup_append]
      refine ⟨(List.nodup_range _).map (createPathForMatch_index_injective g.Path), ?_, ?_⟩
      · split
        · exact List.nodup_singleton _
        · exact List.nodup_nil
      · rw [List.disjoint_left]
        intro x hx hx'
        obtain ⟨i, hi, rfl⟩ := List.mem_map.mp hx
        split at hx'
        · rename_i hpos
          exact hfresh g hg hpos g hg i (List.mem_range.mp hi) (List.mem_singleton.mp hx').symm
        · simp at hx'
    · have hpair : List.Pairwise (fun a b : PathRouteGroup => a.Path ≠ b.Path)
          host.PathRouteGroups := List.pairwise_map.mp hgroups
      refine List.Pairwise.imp_of_mem ?_ hpair
      intro a b ha hb hab
      show List.Disjoint _ _
      rw [List.disjoint_left]
      intro x hxa hxb
      rcases (mem_groupLocations_paths_iff serviceStore a x).mp hxa with
        ⟨i, hi, rfl⟩ | ⟨hposa, rfl⟩
      · rcases (mem_groupLocations_paths_iff serviceStore b _).mp hxb with
          ⟨j, _, hj⟩ | ⟨hposb, hj⟩
        · exact hab (createPathForMatch_injective _ _ _ _ hj).1
        · exact hfresh b hb hposb a ha i hi hj.symm
      · rcases (mem_groupLocations_paths_iff serviceStore b _).mp hxb with
          ⟨j, hj, hj'⟩ | ⟨_, hj⟩
        · exact hfresh a ha hposa b hb j hj hj'
        · exact hab hj

/-- C20 amended, at the host with the groups `/coffee`, `/empty` and `/tea`, and
at the host whose route-less group `/a_route0` bears the synthetic path of the
route of `/a`. -/
theorem generate_paths_nodup_witness :
    (∃ srv w, generate exampleHost exampleStore = some (srv, w) ∧
      (srv.Locations.map (fun l => l.Path)).Nodup) ∧
    (∃ srv w, generate routelessHost exampleStore = some (srv, w) ∧
      (srv.Locations.map (fun l => l.Path)).Nodup) :=
  ⟨⟨_, _, generate_eq exampleHost exampleStore (by decide),
    (generate_paths_nodup exampleHost exampleStore _ _
      (generate_eq exampleHost exampleStore (by decide)) (by decide)).mpr (by decide)⟩,
   ⟨_, _, generate_eq routelessHost exampleStore (by decide),
    (generate_paths_nodup routelessHost exampleStore _ _
      (generate_eq routelessHost exampleStore (by decide)) (by decide)).mpr (by decide)⟩⟩


theorem encodeMatch_any (m : HTTPRouteMatch) (redirectPath : String) :
    (encodeMatch m redirectPath).Any = false ↔
      ¬ (m.Method = none ∧ m.Headers = none ∧ m.QueryParams = none) := by
  unfold encodeMatch
  split <;> simp_all

theorem encodeMatch_carries_predicate (m : HTTPRouteMatch) (redirectPath : String) :
    ((encodeMatch m redirectPath).Method ≠ "" ∨
      (encodeMatch m redirectPath).Headers.getD [] ≠ [] ∨
      (encodeMatch m redirectPath).QueryParams.getD [] ≠ []) ↔
    ((∃ method, m.Method = some method ∧ method ≠ "") ∨
      (∃ h ∈ m.Headers.getD [], h.Typ = some "Exact") ∨
      (∃ p ∈ m.QueryParams.getD [], p.Typ = some "Exact")) := by
  obtain ⟨path, headers, params, method⟩ := m
  unfold encodeMatch
  split
  · rename_i hp
    obtain ⟨h1, h2, h3⟩ := hp
    simp only at h1 h2 h3
    subst h1 h2 h3
    simp
  · have hmethod : (method.getD "" ≠ "") ↔ ∃ x, method = some x ∧ x ≠ "" := by
      cases method <;> simp
    have hheaders : ((headers.map (fun hs =>
        (hs.filter (fun h => decide (h.Typ = some "Exact"))).map
          (fun h => h.Name ++ ":" ++ h.Value))).getD [] ≠ []) ↔
        ∃ h ∈ headers.getD [], h.Typ = some "Exact" := by
      cases headers <;> simp [List.filter_eq_nil_iff]
    have hparams : ((params.map (fun ps =>
        (ps.filter (fun p => decide (p.Typ = some "Exact"))).map
          (fun p => p.Name ++ "=" ++ p.Value))).getD [] ≠ []) ↔
        ∃ p ∈ params.getD [], p.Typ = some "Exact" := by
      cases params <;> simp [List.filter_eq_nil_iff]
    simp only [hmethod, hheaders, hparams]

/-- C19, as stated, fails: a match whose only predicate is a header of type
`RegularExpression` is encoded with `Any = false`, the empty method, an empty
header list and no query parameters. -/
theorem createHTTPMatch_regex_only :
    typesSet ⟨some "/tea", some [⟨some "RegularExpression", "X-Re", "a.*"⟩], none, none⟩ = true ∧
    createHTTPMatch ⟨some "/tea", some [⟨some "RegularExpression", "X-Re", "a.*"⟩], none, none⟩
        "/tea_route0" =
      some { Any := false, Method := "", Headers := some [], QueryParams := none,
             RedirectPath := "/tea_route0" } := by
  decide

/-- C19, amended. For a match whose predicate types are set, `createHTTPMatch`
returns a descriptor; it has `Any = false` exactly when the match has a method,
a header list or a query-parameter list, and it carries a predicate (non-empty
`Method`, `Headers` or `QueryParams`) exactly when the match has a non-empty
method, a header of type `Exact` or a query parameter of type `Exact`. -/
theorem createHTTPMatch_any_or_predicate (m : HTTPRouteMatch) (redirectPath : String)
    (htyped : typesSet m = true) :
    ∃ d, createHTTPMatch m redirectPath = some d ∧
      (d.Any = false ↔ ¬ (m.Method = none ∧ m.Headers = none ∧ m.QueryParams = none)) ∧
      ((d.Method ≠ "" ∨ d.Headers.getD [] ≠ [] ∨ d.QueryParams.getD [] ≠ []) ↔
        ((∃ method, m.Method = some method ∧ method ≠ "") ∨
          (∃ h ∈ m.Headers.getD [], h.Typ = some "Exact") ∨
          (∃ p ∈ m.QueryParams.getD [], p.Typ = some "Exact"))) :=
  ⟨_, createHTTPMatch_of_typesSet m redirectPath htyped, encodeMatch_any m redirectPath,
    encodeMatch_carries_predicate m redirectPath⟩

/-- C19 amended, at a `GET` match with an exact header. -/
theorem createHTTPMatch_any_or_predicate_witness :
    ∃ d, createHTTPMatch ⟨some "/tea", some [⟨some "Exact", "X-Id", "42"⟩], none, some "GET"⟩
        "/tea_route0" = some d ∧ d.Any = false ∧
      (d.Method ≠ "" ∨ d.Headers.getD [] ≠ [] ∨ d.QueryParams.getD [] ≠ []) := by
  obtain ⟨d, hd, hany, hpred⟩ := createHTTPMatch_any_or_predicate
    ⟨some "/tea", some [⟨some "Exact", "X-Id", "42"⟩], none, some "GET"⟩ "/tea_route0" (by decide)
  exact ⟨d, hd, hany.mpr (by decide), hpred.mpr (Or.inl ⟨"GET", rfl, by decide⟩)⟩

end Config

namespace Static

/-! ## Maps built by a loop of assignments -/

theorem BuiltMap.set_same {K V : Type} [DecidableEq K] (m : BuiltMap K V) (k : K) (v : V) :
    m.set k v k = some v := by
  simp [BuiltMap.set]

theorem BuiltMap.set_other {K V : Type} [DecidableEq K] (m : BuiltMap K V) (k k' : K) (v : V)
    (h : k' ≠ k) : m.set k v k' = m k' := by
  simp [BuiltMap.set, h]

/-- A key that the loop does not assign keeps its value. -/
theorem foldl_set_of_not_mem {K V W : Type} [DecidableEq K] (f : K × V → W)
    (entries : List (K × V)) (init : BuiltMap K W) (k : K)
    (h : k ∉ entries.map Prod.fst) :
    entries.foldl (fun m e => m.set e.1 (f e)) init k = init k := by
  induction entries generalizing init with
  | nil => rfl
  | cons e rest ih =>
    simp only [List.map_cons, List.mem_cons, not_or] at h
    rw [List.foldl_cons, ih _ h.2, BuiltMap.set_other _ _ _ _ h.1]

/-- A key that the loop assigns, once, has the value assigned. -/
theorem foldl_set_of_mem {K V W : Type} [DecidableEq K] (f : K × V → W)
    (entries : List (K × V)) (init : BuiltMap K W) (e : K × V)
    (hnodup : (entries.map Prod.fst).Nodup) (he : e ∈ entries) :
    entries.foldl (fun m e => m.set e.1 (f e)) init e.1 = some (f e) := by
  induction entries generalizing init with
  | nil => simp at he
  | cons x rest ih =>
    simp only [List.map_cons, List.nodup_cons] at hnodup
    rw [List.foldl_cons]
    rcases List.mem_cons.mp he with rfl | hmem
    · rw [foldl_set_of_not_mem f rest _ _ hnodup.1, BuiltMap.set_same]
    · exact ih _ hnodup.2 hmem

/-! ## Gateway classes -/

theorem buildGatewayClassStatuses_ignored (conditions : ConditionsPackage)
    (gc : Option graph.GatewayClass)
    (ignored : GoMap Config.NamespacedName v1beta1.GatewayClass)
    (e : Config.NamespacedName × v1beta1.GatewayClass) (he : e ∈ ignored.entries) :
    buildGatewayClassStatuses conditions gc ignored e.1 =
      some { Conditions := [conditions.NewGatewayClassConflict],
             ObservedGeneration := e.2.Generation } := by
  unfold buildGatewayClassStatuses
  exact foldl_set_of_mem
    (fun entry : Config.NamespacedName × v1beta1.GatewayClass =>
      ({ Conditions := [conditions.NewGatewayClassConflict],
         ObservedGeneration := entry.2.Generation } : status.GatewayClassStatus))
    ignored.entries _ e ignored.nodup he

theorem buildGatewayClassStatuses_not_ignored (conditions : ConditionsPackage)
    (gc : Option graph.GatewayClass)
    (ignored : GoMap Config.NamespacedName v1beta1.GatewayClass)
    (k : Config.NamespacedName) (hk : k ∉ ignored.keys) :
    buildGatewayClassStatuses conditions gc ignored k =
      match gc with
      | some gc =>
        if k = gc.Source.ObjectKey then
          some { Conditions := DeduplicateConditions
                   (conditions.NewDefaultGatewayClassConditions ++ gc.Conditions),
                 ObservedGeneration := gc.Source.Generation }
        else none
      | none => none := by
  unfold buildGatewayClassStatuses
  rw [foldl_set_of_not_mem
    (fun entry : Config.NamespacedName × v1beta1.GatewayClass =>
      ({ Conditions := [conditions.NewGatewayClassConflict],
         ObservedGeneration := entry.2.Generation } : status.GatewayClassStatus))
    ignored.entries _ k hk]
  cases gc with
  | none => rfl
  | some gc => simp [BuiltMap.set, BuiltMap.empty]

theorem buildStatuses_fields (conditions : ConditionsPackage) (graph : graph.Graph)
    (res : nginxReloadResult) (report : status.Statuses)
    (h : buildStatuses conditions graph res = some report) :
    report.GatewayClassStatuses =
      buildGatewayClassStatuses conditions graph.GatewayClass graph.IgnoredGatewayClasses ∧
    report.GatewayStatuses =
      buildGatewayStatuses conditions graph.Gateway graph.IgnoredGateways res ∧
    buildRouteStatuses conditions res graph.Routes.entries BuiltMap.empty =
      some report.HTTPRouteStatuses := by
  unfold buildStatuses at h
  cases hr : buildRouteStatuses conditions res graph.Routes.entries BuiltMap.empty with
  | none => simp [hr] at h
  | some routes =>
    simp only [hr, Option.some.injEq] at h
    subst h
    exact ⟨rfl, rfl, rfl⟩

/-- C16. A live gateway class whose identity is not among the ignored classes
is mapped to the deduplicated default conditions followed by its own, with the
generation of its source; `buildGatewayClassStatuses` does not read the reload
outcome, so every report carries this entry; and without a live class and
without ignored classes the map is empty. -/
theorem buildGatewayClassStatuses_live (conditions : ConditionsPackage) (graph : graph.Graph) :
    (∀ gc, graph.GatewayClass = some gc →
      gc.Source.ObjectKey ∉ graph.IgnoredGatewayClasses.keys →
      buildGatewayClassStatuses conditions graph.GatewayClass graph.IgnoredGatewayClasses
          gc.Source.ObjectKey =
        some { Conditions := DeduplicateConditions
                 (conditions.NewDefaultGatewayClassConditions ++ gc.Conditions),
               ObservedGeneration := gc.Source.Generation }) ∧
    (graph.GatewayClass = none → graph.IgnoredGatewayClasses.entries = [] →
      ∀ k, buildGatewayClassStatuses conditions graph.GatewayClass graph.IgnoredGatewayClasses k =
        none) ∧
    (∀ res report, buildStatuses conditions graph res = some report →
      report.GatewayClassStatuses =
        buildGatewayClassStatuses conditions graph.GatewayClass graph.IgnoredGatewayClasses) := by
  refine ⟨?_, ?_, fun res report h => (buildStatuses_fields conditions graph res report h).1⟩
  · intro gc hgc hk
    rw [buildGatewayClassStatuses_not_ignored conditions _ _ _ hk, hgc]
    simp
  · intro hgc hnil k
    rw [buildGatewayClassStatuses_not_ignored conditions _ _ k (by simp [GoMap.keys, hnil]), hgc]

/-- C16, at the example graph. -/
theorem buildGatewayClassStatuses_live_witness :
    buildGatewayClassStatuses exampleConditions (exampleGraph true exampleRoutes).GatewayClass
        (exampleGraph true exampleRoutes).IgnoredGatewayClasses ⟨"", "nginx"⟩ =
      some { Conditions := [exampleCondition "Accepted" "False" "InvalidParameters"],
             ObservedGeneration := 2 } :=
  ((buildGatewayClassStatuses_live exampleConditions (exampleGraph true exampleRoutes)).1
    _ rfl (by decide)).trans (by decide)

/-! ## Ignored objects -/

theorem buildGatewayStatuses_ignored (conditions : ConditionsPackage)
    (gateway : Option graph.Gateway)
    (ignored : GoMap Config.NamespacedName v1beta1.Gateway) (res : nginxReloadResult)
    (e : Config.NamespacedName × v1beta1.Gateway) (he : e ∈ ignored.entries) :
    buildGatewayStatuses conditions gateway ignored res e.1 =
      some { Conditions := conditions.NewGatewayConflict,
             ListenerStatuses := BuiltMap.empty,
             ObservedGeneration := e.2.Generation } := by
  unfold buildGatewayStatuses
  exact foldl_set_of_mem
    (fun entry : Config.NamespacedName × v1beta1.Gateway =>
      ({ Conditions := conditions.NewGatewayConflict,
         ListenerStatuses := BuiltMap.empty,
         ObservedGeneration := entry.2.Generation } : status.GatewayStatus))
    ignored.entries _ e ignored.nodup he

theorem buildGatewayStatuses_not_ignored (conditions : ConditionsPackage)
    (gateway : graph.Gateway)
    (ignored : GoMap Config.NamespacedName v1beta1.Gateway) (res : nginxReloadResult)
    (hk : gateway.Source.ObjectKey ∉ ignored.keys) :
    buildGatewayStatuses conditions (some gateway) ignored res gateway.Source.ObjectKey =
      some (buildGatewayStatus conditions gateway res) := by
  unfold buildGatewayStatuses
  rw [foldl_set_of_not_mem
    (fun entry : Config.NamespacedName × v1beta1.Gateway =>
      ({ Conditions := conditions.NewGatewayConflict,
         ListenerStatuses := BuiltMap.empty,
         ObservedGeneration := entry.2.Generation } : status.GatewayStatus))
    ignored.entries _ _ hk]
  simp [BuiltMap.set]

/-- C17. Every ignored gateway class is mapped to the single gateway-class
conflict condition and every ignored gateway to the fixed gateway conflict
conditions without listener statuses, each with the generation of the ignored
object, whatever the live objects and the reload outcome are and also when the
identity is that of the live object; every report carries these entries. -/
theorem ignored_objects_conflict (conditions : ConditionsPackage) (graph : graph.Graph)
    (res : nginxReloadResult) :
    (∀ e ∈ graph.IgnoredGatewayClasses.entries,
      buildGatewayClassStatuses conditions graph.GatewayClass graph.IgnoredGatewayClasses e.1 =
        some { Conditions := [conditions.NewGatewayClassConflict],
               ObservedGeneration := e.2.Generation }) ∧
    (∀ e ∈ graph.IgnoredGateways.entries,
      ∃ st, buildGatewayStatuses conditions graph.Gateway graph.IgnoredGateways res e.1 = some st ∧
        st.Conditions = conditions.NewGatewayConflict ∧
        st.ObservedGeneration = e.2.Generation ∧
        ∀ name, st.ListenerStatuses name = none) ∧
    (∀ report, buildStatuses conditions graph res = some report →
      report.GatewayClassStatuses =
        buildGatewayClassStatuses conditions graph.GatewayClass graph.IgnoredGatewayClasses ∧
      report.GatewayStatuses =
        buildGatewayStatuses conditions graph.Gateway graph.IgnoredGateways res) := by
  refine ⟨fun e he => buildGatewayClassStatuses_ignored conditions _ _ e he, ?_, ?_⟩
  · intro e he
    exact ⟨_, buildGatewayStatuses_ignored conditions _ _ res e he, rfl, rfl, fun _ => rfl⟩
  · intro report h
    exact ⟨(buildStatuses_fields conditions graph res report h).1,
      (buildStatuses_fields conditions graph res report h).2.1⟩

/-- C17, at the ignored class and the ignored gateway of the example graph. -/
theorem ignored_objects_conflict_witness :
    buildGatewayClassStatuses exampleConditions (exampleGraph true exampleRoutes).GatewayClass
        (exampleGraph true exampleRoutes).IgnoredGatewayClasses ⟨"", "other"⟩ =
      some { Conditions := [exampleCondition "Accepted" "False" "GatewayClassConflict"],
             ObservedGeneration := 5 } :=
  (ignored_objects_conflict exampleConditions (exampleGraph true exampleRoutes) reloadFailed).1
    (⟨"", "other"⟩, { Namespace := "", Name := "other", Generation := 5 }) (by decide)


/-! ## The live gateway -/

theorem listeners_fold (conditions : ConditionsPackage) (res : nginxReloadResult)
    (entries : List (String × graph.Listener))
    (m : BuiltMap String status.ListenerStatus) (n : Nat) :
    entries.foldl (listenerStep conditions res) (m, n) =
      (entries.foldl (fun m e => m.set e.1 (listenerStatus conditions res e.2)) m,
       n + (entries.filter (fun e => e.2.Valid)).length) := by
  induction entries generalizing m n with
  | nil => rfl
  | cons e rest ih =>
    obtain ⟨name, l⟩ := e
    rw [List.foldl_cons, List.foldl_cons]
    have hstep : listenerStep conditions res (m, n) (name, l) =
        (m.set name (listenerStatus conditions res l), n + (if l.Valid then 1 else 0)) := by
      unfold listenerStep listenerStatus reloadListener
      cases hv : l.Valid <;> cases he : res.error.isSome <;> simp [hv, he]
    rw [hstep, ih]
    cases hv : l.Valid <;> simp [List.filter_cons, hv, Nat.add_assoc, Nat.add_comm]

/-- The status of a valid gateway in closed form: the acceptance conditions
depend on the number of valid listeners only. -/
theorem buildGatewayStatus_of_valid (conditions : ConditionsPackage) (gateway : graph.Gateway)
    (res : nginxReloadResult) (hvalid : gateway.Valid = true) :
    buildGatewayStatus conditions gateway res =
      { Conditions := DeduplicateConditions
          (conditions.NewDefaultGatewayConditions ++
            (if (gateway.Listeners.entries.filter (fun e => e.2.Valid)).length = 0 then
               conditions.NewGatewayNotAcceptedListenersNotValid
             else if (gateway.Listeners.entries.filter (fun e => e.2.Valid)).length <
                 gateway.Listeners.entries.length then
               [conditions.NewGatewayAcceptedListenersNotValid]
             else []) ++
            reloadGateway conditions res),
        ListenerStatuses := gateway.Listeners.entries.foldl
          (fun m e => m.set e.1 (listenerStatus conditions res e.2)) BuiltMap.empty,
        ObservedGeneration := gateway.Source.Generation } := by
  unfold buildGatewayStatus
  simp only [hvalid, Bool.not_true, Bool.false_eq_true, if_false, listeners_fold, Nat.zero_add,
    GoMap.len, reloadGateway]
  split_ifs <;> simp

theorem buildGatewayStatus_of_invalid (conditions : ConditionsPackage) (gateway : graph.Gateway)
    (res : nginxReloadResult) (hvalid : gateway.Valid = false) :
    buildGatewayStatus conditions gateway res =
      { Conditions := DeduplicateConditions gateway.Conditions,
        ListenerStatuses := BuiltMap.empty,
        ObservedGeneration := gateway.Source.Generation } := by
  unfold buildGatewayStatus
  simp [hvalid]

/-- C13. `buildGatewayStatus` mirrors the generation of the gateway's source;
for a gateway that is not valid the conditions are its own, deduplicated, and
there are no listener statuses; for a valid gateway they are the deduplicated
default conditions followed by the not-accepted conditions when no listener is
valid, by the accepted-with-invalid-listeners condition when some but not all
are, by nothing when all of at least one are, and last by the reload-failure
condition when the reload outcome carries an error. -/
theorem buildGatewayStatus_conditions (conditions : ConditionsPackage) (gateway : graph.Gateway)
    (res : nginxReloadResult) :
    (buildGatewayStatus conditions gateway res).ObservedGeneration = gateway.Source.Generation ∧
    (gateway.Valid = false →
      (buildGatewayStatus conditions gateway res).Conditions =
        DeduplicateConditions gateway.Conditions ∧
      ∀ name, (buildGatewayStatus conditions gateway res).ListenerStatuses name = none) ∧
    (gateway.Valid = true →
      ((∀ e ∈ gateway.Listeners.entries, e.2.Valid = false) →
        (buildGatewayStatus conditions gateway res).Conditions =
          DeduplicateConditions (conditions.NewDefaultGatewayConditions ++
            conditions.NewGatewayNotAcceptedListenersNotValid ++
            reloadGateway conditions res)) ∧
      ((∃ e ∈ gateway.Listeners.entries, e.2.Valid = true) →
        (∃ e ∈ gateway.Listeners.entries, e.2.Valid = false) →
        (buildGatewayStatus conditions gateway res).Conditions =
          DeduplicateConditions (conditions.NewDefaultGatewayConditions ++
            [conditions.NewGatewayAcceptedListenersNotValid] ++
            reloadGateway conditions res)) ∧
      (gateway.Listeners.entries ≠ [] →
        (∀ e ∈ gateway.Listeners.entries, e.2.Valid = true) →
        (buildGatewayStatus conditions gateway res).Conditions =
          DeduplicateConditions (conditions.NewDefaultGatewayConditions ++
            reloadGateway conditions res))) := by
  refine ⟨?_, ?_, ?_⟩
  · cases hv : gateway.Valid
    · rw [buildGatewayStatus_of_invalid conditions gateway res hv]
    · rw [buildGatewayStatus_of_valid conditions gateway res hv]
  · intro hv
    rw [buildGatewayStatus_of_invalid conditions gateway res hv]
    exact ⟨rfl, fun _ => rfl⟩
  · intro hv
    rw [buildGatewayStatus_of_valid conditions gateway res hv]
    refine ⟨?_, ?_, ?_⟩
    · intro hnone
      have hzero : (gateway.Listeners.entries.filter (fun e => e.2.Valid)).length = 0 := by
        rw [List.length_eq_zero, List.filter_eq_nil_iff]
        intro e he
        simp [hnone e he]
      simp only [hzero, if_true]
    · intro hsome hnot
      have hpos : (gateway.Listeners.entries.filter (fun e => e.2.Valid)).length ≠ 0 := by
        obtain ⟨e, he, hev⟩ := hsome
        rw [Ne, List.length_eq_zero, List.filter_eq_nil_iff]
        intro hall
        exact hall e he hev
      have hlt : (gateway.Listeners.entries.filter (fun e => e.2.Valid)).length <
          gateway.Listeners.entries.length := by
        rw [List.length_filter_lt_length_iff_exists]
        obtain ⟨e, he, hev⟩ := hnot
        exact ⟨e, he, by simp [hev]⟩
      simp only [hpos, hlt, if_true, if_false]
    · intro hne hall
      have hlen : (gateway.Listeners.entries.filter (fun e => e.2.Valid)).length =
          gateway.Listeners.entries.length :=
        List.filter_length_eq_length.mpr (fun e he => hall e he)
      have hpos : gateway.Listeners.entries.length ≠ 0 := by
        rwa [Ne, List.length_eq_zero]
      simp only [hlen, hpos, Nat.lt_irrefl, if_false, List.append_nil]

/-- C13, at the example gateway, valid, with one valid and one invalid
listener, after a failed reload. -/
theorem buildGatewayStatus_conditions_witness :
    (buildGatewayStatus exampleConditions (exampleGateway true) reloadFailed).Conditions =
      [exampleCondition "Accepted" "True" "ListenersNotValid",
       { Typ := "Programmed", Status := "False", Reason := "Invalid",
         Message := "reload failed" }] :=
  (((buildGatewayStatus_conditions exampleConditions (exampleGateway true) reloadFailed).2.2
    rfl).2.1 (by decide) (by decide)).trans (by decide)


/-! ## Listeners of a valid gateway -/

theorem buildGatewayStatus_listener (conditions : ConditionsPackage) (gateway : graph.Gateway)
    (res : nginxReloadResult) (hvalid : gateway.Valid = true)
    (e : String × graph.Listener) (he : e ∈ gateway.Listeners.entries) :
    (buildGatewayStatus conditions gateway res).ListenerStatuses e.1 =
      some (listenerStatus conditions res e.2) := by
  rw [buildGatewayStatus_of_valid conditions gateway res hvalid]
  exact foldl_set_of_mem (fun e : String × graph.Listener => listenerStatus conditions res e.2)
    gateway.Listeners.entries _ e gateway.Listeners.nodup he

theorem buildGatewayStatus_no_listener (conditions : ConditionsPackage) (gateway : graph.Gateway)
    (res : nginxReloadResult) (hvalid : gateway.Valid = true)
    (name : String) (hname : name ∉ gateway.Listeners.keys) :
    (buildGatewayStatus conditions gateway res).ListenerStatuses name = none := by
  rw [buildGatewayStatus_of_valid conditions gateway res hvalid]
  exact foldl_set_of_not_mem (fun e : String × graph.Listener => listenerStatus conditions res e.2)
    gateway.Listeners.entries _ name hname

theorem int32_of_small (n : Nat) (h : n < 2 ^ 31) : int32 n = n := by
  unfold int32
  omega

/-- C14, as stated, fails: for a listener with `2 ^ 31` routes the conversion
to `int32` wraps, and `AttachedRoutes` is `-2147483648`. -/
theorem attachedRoutes_wraps :
    crowdedGateway.Valid = true ∧
    (manyRoutes (2 ^ 31)).len = 2147483648 ∧
    ((buildGatewayStatus exampleConditions crowdedGateway reloadOk).ListenerStatuses "http").map
      (fun s => s.AttachedRoutes) = some (-2147483648) := by
  have hlen : (manyRoutes (2 ^ 31)).len = 2147483648 := by
    simp only [GoMap.len, manyRoutes, List.length_map, List.length_range]
    rfl
  refine ⟨rfl, hlen, ?_⟩
  have h := buildGatewayStatus_listener exampleConditions crowdedGateway reloadOk rfl
    ("http", { Valid := true, Conditions := [], Routes := manyRoutes (2 ^ 31),
               SupportedKinds := [] })
    (List.mem_singleton.mpr rfl)
  rw [h]
  simp only [Option.map_some', listenerStatus, hlen]
  rfl

/-- C14, amended. The status of a valid gateway has a listener status for
exactly the listener names of the gateway; that of a valid listener has the
deduplicated default listener conditions and that of an invalid listener its
own conditions, deduplicated, in both cases followed by the reload-failure
condition when the reload outcome carries an error; `AttachedRoutes` is the
number of routes of the listener converted to `int32`, which is that number
when it is below `2 ^ 31`; and `SupportedKinds` is that of the listener. -/
theorem buildGatewayStatus_listeners (conditions : ConditionsPackage) (gateway : graph.Gateway)
    (res : nginxReloadResult) (hvalid : gateway.Valid = true) :
    (∀ name, ((buildGatewayStatus conditions gateway res).ListenerStatuses name).isSome = true ↔
      name ∈ gateway.Listeners.keys) ∧
    (∀ e ∈ gateway.Listeners.entries,
      ∃ st, (buildGatewayStatus conditions gateway res).ListenerStatuses e.1 = some st ∧
        (e.2.Valid = true → st.Conditions = DeduplicateConditions
          (conditions.NewDefaultListenerConditions ++ reloadListener conditions res)) ∧
        (e.2.Valid = false → st.Conditions = DeduplicateConditions
          (e.2.Conditions ++ reloadListener conditions res)) ∧
        st.AttachedRoutes = int32 e.2.Routes.len ∧
        (e.2.Routes.len < 2 ^ 31 → st.AttachedRoutes = e.2.Routes.len) ∧
        st.SupportedKinds = e.2.SupportedKinds) := by
  constructor
  · intro name
    constructor
    · intro hsome
      by_contra hmem
      rw [buildGatewayStatus_no_listener conditions gateway res hvalid name hmem] at hsome
      simp at hsome
    · intro hmem
      obtain ⟨e, he, rfl⟩ := List.mem_map.mp hmem
      rw [buildGatewayStatus_listener conditions gateway res hvalid e he]
      rfl
  · intro e he
    refine ⟨_, buildGatewayStatus_listener conditions gateway res hvalid e he, ?_, ?_, rfl,
      fun hsmall => int32_of_small _ hsmall, rfl⟩
    · intro hv
      simp [listenerStatus, hv]
    · intro hv
      simp [listenerStatus, hv]

/-- C14 amended, at the example gateway after a failed reload. -/
theorem buildGatewayStatus_listeners_witness :
    (exampleGateway true).Valid = true ∧
    ∀ name, ((buildGatewayStatus exampleConditions (exampleGateway true)
      reloadFailed).ListenerStatuses name).isSome = true ↔ name ∈ ["http", "https"] :=
  ⟨rfl, (buildGatewayStatus_listeners exampleConditions (exampleGateway true) reloadFailed rfl).1⟩

/-! ## The condition appended last -/

theorem mem_typeOrder (conds : List Condition) (seen : List String) (c : Condition)
    (hc : c ∈ conds) (hseen : c.Typ ∉ seen) : c.Typ ∈ typeOrder conds seen := by
  induction conds generalizing seen with
  | nil => simp at hc
  | cons x rest ih =>
    unfold typeOrder
    by_cases hx : x.Typ ∈ seen
    · simp only [hx, if_true]
      rcases List.mem_cons.mp hc with rfl | hrest
      · exact absurd hx hseen
      · exact ih seen hrest hseen
    · simp only [hx, if_false]
      by_cases hsame : c.Typ = x.Typ
      · rw [hsame]; exact List.mem_cons_self _ _
      · rcases List.mem_cons.mp hc with rfl | hrest
        · exact absurd rfl hsame
        · refine List.mem_cons_of_mem _ (ih (x.Typ :: seen) hrest ?_)
          simp only [List.mem_cons, not_or]
          exact ⟨hsame, hseen⟩

/-- The condition at the end of a list is in its deduplication. -/
theorem last_mem_DeduplicateConditions (init : List Condition) (c : Condition) :
    c ∈ DeduplicateConditions (init ++ [c]) := by
  unfold DeduplicateConditions
  rw [List.mem_filterMap]
  refine ⟨c.Typ, mem_typeOrder _ [] c (by simp) (by simp), ?_⟩
  unfold lastOfType
  rw [List.filter_append]
  simp


/-! ## Routes -/

theorem goIndex_of_idxInRange (r : graph.Route) (ref : graph.ParentRef)
    (h : idxInRange r ref) :
    ∃ routeRef, Config.goIndex r.Source.Spec.ParentRefs ref.Idx = some routeRef := by
  obtain ⟨h0, h1⟩ := h
  have hlt : ref.Idx.toNat < r.Source.Spec.ParentRefs.length := by omega
  refine ⟨r.Source.Spec.ParentRefs.get ⟨_, hlt⟩, ?_⟩
  have : ¬ ref.Idx < 0 := by omega
  simp [Config.goIndex, this, List.get?_eq_get hlt]

theorem goIndex_none_of_not_idxInRange (r : graph.Route) (ref : graph.ParentRef)
    (h : ¬ idxInRange r ref) :
    Config.goIndex r.Source.Spec.ParentRefs ref.Idx = none := by
  unfold idxInRange at h
  unfold Config.goIndex
  by_cases hneg : ref.Idx < 0
  · simp [hneg]
  · have hge : r.Source.Spec.ParentRefs.length ≤ ref.Idx.toNat := by omega
    simp only [hneg, if_false]
    exact List.get?_eq_none.mpr hge

/-- One step of the loop over the parent references. -/
theorem buildParentStatuses_cons (conditions : ConditionsPackage) (res : nginxReloadResult)
    (r : graph.Route) (ref : graph.ParentRef) (rest : List graph.ParentRef)
    (acc : List status.ParentStatus) :
    buildParentStatuses conditions res r conditions.NewDefaultRouteConditions (ref :: rest) acc =
      match Config.goIndex r.Source.Spec.ParentRefs ref.Idx with
      | none => none
      | some _ =>
        buildParentStatuses conditions res r conditions.NewDefaultRouteConditions rest
          (acc ++ [parentStatus conditions res r ref]) := by
  cases hidx : Config.goIndex r.Source.Spec.ParentRefs ref.Idx with
  | none => simp [buildParentStatuses, hidx]
  | some routeRef =>
    cases hatt : ref.Attachment with
    | none =>
      cases he : res.error.isSome <;>
        simp [buildParentStatuses, hidx, hatt, he, parentStatus, failedAttachment, reloadRoute]
    | some a =>
      cases ha : a.Attached <;> cases he : res.error.isSome <;>
        simp [buildParentStatuses, hidx, hatt, he, ha, parentStatus, failedAttachment,
          reloadRoute]

theorem buildParentStatuses_eq (conditions : ConditionsPackage) (res : nginxReloadResult)
    (r : graph.Route) (refs : List graph.ParentRef) (acc : List status.ParentStatus)
    (h : refs.all (fun ref => decide (idxInRange r ref)) = true) :
    buildParentStatuses conditions res r conditions.NewDefaultRouteConditions refs acc =
      some (acc ++ refs.map (parentStatus conditions res r)) := by
  induction refs generalizing acc with
  | nil => simp [buildParentStatuses]
  | cons ref rest ih =>
    simp only [List.all_cons, Bool.and_eq_true, decide_eq_true_eq] at h
    obtain ⟨routeRef, hidx⟩ := goIndex_of_idxInRange r ref h.1
    rw [buildParentStatuses_cons, hidx]
    simp only
    rw [ih _ h.2]
    simp

theorem buildParentStatuses_none (conditions : ConditionsPackage) (res : nginxReloadResult)
    (r : graph.Route) (refs : List graph.ParentRef) (acc : List status.ParentStatus)
    (h : refs.all (fun ref => decide (idxInRange r ref)) = false) :
    buildParentStatuses conditions res r conditions.NewDefaultRouteConditions refs acc = none := by
  induction refs generalizing acc with
  | nil => simp at h
  | cons ref rest ih =>
    rw [buildParentStatuses_cons]
    by_cases hin : idxInRange r ref
    · obtain ⟨routeRef, hidx⟩ := goIndex_of_idxInRange r ref hin
      rw [hidx]
      simp only
      apply ih
      simpa [List.all_cons, hin] using h
    · rw [goIndex_none_of_not_idxInRange r ref hin]

/-- The loop over the routes in closed form, when every index is in range. -/
theorem buildRouteStatuses_eq (conditions : ConditionsPackage) (res : nginxReloadResult)
    (entries : List (Config.NamespacedName × graph.Route))
    (m : BuiltMap Config.NamespacedName status.HTTPRouteStatus)
    (h : entries.all
      (fun e => e.2.ParentRefs.all (fun ref => decide (idxInRange e.2 ref))) = true) :
    buildRouteStatuses conditions res entries m =
      some (entries.foldl
        (fun m e => m.set e.1
          ({ ObservedGeneration := e.2.Source.Generation,
             ParentStatuses := e.2.ParentRefs.map (parentStatus conditions res e.2) } :
            status.HTTPRouteStatus)) m) := by
  induction entries generalizing m with
  | nil => rfl
  | cons e rest ih =>
    obtain ⟨nsname, r⟩ := e
    simp only [List.all_cons, Bool.and_eq_true] at h
    simp only [buildRouteStatuses, buildParentStatuses_eq conditions res r _ [] h.1,
      List.nil_append, List.foldl_cons]
    exact ih _ h.2

theorem buildRouteStatuses_none (conditions : ConditionsPackage) (res : nginxReloadResult)
    (entries : List (Config.NamespacedName × graph.Route))
    (m : BuiltMap Config.NamespacedName status.HTTPRouteStatus)
    (h : entries.all
      (fun e => e.2.ParentRefs.all (fun ref => decide (idxInRange e.2 ref))) = false) :
    buildRouteStatuses conditions res entries m = none := by
  induction entries generalizing m with
  | nil => simp at h
  | cons e rest ih =>
    obtain ⟨nsname, r⟩ := e
    by_cases hr : r.ParentRefs.all (fun ref => decide (idxInRange r ref)) = true
    · simp only [buildRouteStatuses, buildParentStatuses_eq conditions res r _ [] hr]
      apply ih
      simpa [List.all_cons, hr] using h
    · have hr' : r.ParentRefs.all (fun ref => decide (idxInRange r ref)) = false := by
        simpa using hr
      simp only [buildRouteStatuses, buildParentStatuses_none conditions res r _ [] hr']

theorem buildStatuses_eq (conditions : ConditionsPackage) (graph : graph.Graph)
    (res : nginxReloadResult) (h : graphIdxInRange graph = true) :
    buildStatuses conditions graph res =
      some { GatewayClassStatuses :=
               buildGatewayClassStatuses conditions graph.GatewayClass graph.IgnoredGatewayClasses,
             GatewayStatuses :=
               buildGatewayStatuses conditions graph.Gateway graph.IgnoredGateways res,
             HTTPRouteStatuses := graph.Routes.entries.foldl
               (fun m e => m.set e.1
                 ({ ObservedGeneration := e.2.Source.Generation,
                    ParentStatuses := e.2.ParentRefs.map (parentStatus conditions res e.2) } :
                   status.HTTPRouteStatus)) BuiltMap.empty } := by
  unfold buildStatuses
  rw [buildRouteStatuses_eq conditions res _ _ h]

theorem buildStatuses_none (conditions : ConditionsPackage) (graph : graph.Graph)
    (res : nginxReloadResult) (h : graphIdxInRange graph = false) :
    buildStatuses conditions graph res = none := by
  unfold buildStatuses
  rw [buildRouteStatuses_none conditions res _ _ h]

/-- C18, as stated, fails: for a route whose parent reference has index 1 while
its source has a single parent reference, the index is out of range and
`buildStatuses` panics. -/
theorem buildStatuses_idx_out_of_range :
    (buildStatuses exampleConditions
      (exampleGraph true ⟨[(⟨"default", "tea"⟩, idxOutOfRangeRoute)], by decide⟩)
      reloadOk).isNone = true := by
  decide

/-- C18, amended. `buildStatuses` returns a status report exactly for the graphs
in which every parent reference of every route has its index within the parent
references of the route's source, whatever the reload outcome. -/
theorem buildStatuses_returns_iff (conditions : ConditionsPackage) (graph : graph.Graph)
    (res : nginxReloadResult) :
    (∃ report, buildStatuses conditions graph res = some report) ↔
      graphIdxInRange graph = true := by
  constructor
  · rintro ⟨report, hreport⟩
    by_contra hnot
    have hfalse : graphIdxInRange graph = false := by simpa using hnot
    rw [buildStatuses_none conditions graph res hfalse] at hreport
    exact absurd hreport (by simp)
  · intro h
    exact ⟨_, buildStatuses_eq conditions graph res h⟩

/-- C18 amended, at the example graph after a failed reload. -/
theorem buildStatuses_returns_iff_witness :
    ∃ report, buildStatuses exampleConditions (exampleGraph false exampleRoutes) reloadFailed =
      some report :=
  (buildStatuses_returns_iff exampleConditions (exampleGraph false exampleRoutes)
    reloadFailed).mpr (by decide)


theorem routeStatus_of_mem (conditions : ConditionsPackage) (g : graph.Graph)
    (res : nginxReloadResult) (report : status.Statuses)
    (hreport : buildStatuses conditions g res = some report)
    (hidx : graphIdxInRange g = true)
    (e : Config.NamespacedName × graph.Route) (he : e ∈ g.Routes.entries) :
    report.HTTPRouteStatuses e.1 =
      some { ObservedGeneration := e.2.Source.Generation,
             ParentStatuses := e.2.ParentRefs.map (parentStatus conditions res e.2) } := by
  rw [buildStatuses_eq conditions g res hidx] at hreport
  cases hreport
  exact foldl_set_of_mem
    (fun e : Config.NamespacedName × graph.Route =>
      ({ ObservedGeneration := e.2.Source.Generation,
         ParentStatuses := e.2.ParentRefs.map (parentStatus conditions res e.2) } :
        status.HTTPRouteStatus))
    g.Routes.entries _ e g.Routes.nodup he

theorem routeStatus_of_not_mem (conditions : ConditionsPackage) (g : graph.Graph)
    (res : nginxReloadResult) (report : status.Statuses)
    (hreport : buildStatuses conditions g res = some report)
    (hidx : graphIdxInRange g = true)
    (k : Config.NamespacedName) (hk : k ∉ g.Routes.keys) :
    report.HTTPRouteStatuses k = none := by
  rw [buildStatuses_eq conditions g res hidx] at hreport
  cases hreport
  exact foldl_set_of_not_mem
    (fun e : Config.NamespacedName × graph.Route =>
      ({ ObservedGeneration := e.2.Source.Generation,
         ParentStatuses := e.2.ParentRefs.map (parentStatus conditions res e.2) } :
        status.HTTPRouteStatus))
    g.Routes.entries _ k hk

theorem idxInRange_of_mem (g : graph.Graph) (hidx : graphIdxInRange g = true)
    (e : Config.NamespacedName × graph.Route) (he : e ∈ g.Routes.entries)
    (ref : graph.ParentRef) (href : ref ∈ e.2.ParentRefs) : idxInRange e.2 ref := by
  simp only [graphIdxInRange, List.all_eq_true, decide_eq_true_eq] at hidx
  exact hidx e he ref href

/-- C12, as stated, fails: for a route whose parent reference has a negative
index `buildStatuses` panics and yields no route status. -/
theorem buildStatuses_idx_negative :
    (buildStatuses exampleConditions
      (exampleGraph true ⟨[(⟨"default", "tea"⟩, idxNegativeRoute)], by decide⟩)
      reloadOk).isNone = true := by
  decide

/-- C12, amended. For a graph whose parent-reference indices are in range,
`buildStatuses` returns a report with a route status for exactly the routes of
the graph; the status of a route has the generation of the route's source and
one parent status per parent reference, in order, with the reference's gateway,
the section name of the original parent reference at the reference's index, and
the deduplicated default route conditions, route conditions, failed-attachment
condition (attachment present and not attached) and reload-failure condition
(reload outcome with an error). -/
theorem buildStatuses_routes (conditions : ConditionsPackage) (g : graph.Graph)
    (res : nginxReloadResult) (hidx : graphIdxInRange g = true) :
    ∃ report, buildStatuses conditions g res = some report ∧
      (∀ k, (report.HTTPRouteStatuses k).isSome = true ↔ k ∈ g.Routes.keys) ∧
      ∀ e ∈ g.Routes.entries,
        ∃ st, report.HTTPRouteStatuses e.1 = some st ∧
          st.ObservedGeneration = e.2.Source.Generation ∧
          st.ParentStatuses.length = e.2.ParentRefs.length ∧
          ∀ i (hi : i < e.2.ParentRefs.length),
            ∃ routeRef,
              Config.goIndex e.2.Source.Spec.ParentRefs (e.2.ParentRefs.get ⟨i, hi⟩).Idx =
                some routeRef ∧
              st.ParentStatuses[i]? =
                some { GatewayNsName := (e.2.ParentRefs.get ⟨i, hi⟩).Gateway,
                       SectionName := routeRef.SectionName,
                       Conditions := DeduplicateConditions
                         (conditions.NewDefaultRouteConditions ++ e.2.Conditions ++
                           failedAttachment (e.2.ParentRefs.get ⟨i, hi⟩) ++
                           reloadRoute conditions res) } := by
  obtain ⟨report, hreport⟩ : ∃ report, buildStatuses conditions g res = some report :=
    ⟨_, buildStatuses_eq conditions g res hidx⟩
  refine ⟨report, hreport, ?_, ?_⟩
  · intro k
    constructor
    · intro hsome
      by_contra hmem
      rw [routeStatus_of_not_mem conditions g res report hreport hidx k hmem] at hsome
      simp at hsome
    · intro hmem
      obtain ⟨e, he, rfl⟩ := List.mem_map.mp hmem
      rw [routeStatus_of_mem conditions g res report hreport hidx e he]
      rfl
  · intro e he
    refine ⟨_, routeStatus_of_mem conditions g res report hreport hidx e he, rfl,
      by simp, ?_⟩
    intro i hi
    obtain ⟨routeRef, hrr⟩ := goIndex_of_idxInRange e.2 (e.2.ParentRefs.get ⟨i, hi⟩)
      (idxInRange_of_mem g hidx e he _ (List.get_mem _ _ _))
    refine ⟨routeRef, hrr, ?_⟩
    simp only [List.getElem?_map, List.getElem?_eq_getElem hi, Option.map_some']
    simp only [List.get_eq_getElem] at hrr
    simp [parentStatus, hrr]

/-- C12 amended, at the example graph after a failed reload: the report has a
status for the route `cafe` and for no other name. -/
theorem buildStatuses_routes_witness :
    graphIdxInRange (exampleGraph true exampleRoutes) = true ∧
    ∃ report, buildStatuses exampleConditions (exampleGraph true exampleRoutes) reloadFailed =
        some report ∧
      ∀ k, (report.HTTPRouteStatuses k).isSome = true ↔ k ∈ [⟨"default", "cafe"⟩] :=
  ⟨by decide, by
    obtain ⟨report, hreport, hkeys, _⟩ :=
      buildStatuses_routes exampleConditions (exampleGraph true exampleRoutes) reloadFailed
        (by decide)
    exact ⟨report, hreport, hkeys⟩⟩

/-! ## Reload failure -/

/-- C15, as stated, fails: with a live gateway that is not valid and a failed
reload, the gateway's status in the report has the gateway's own conditions
only and no listener status; when an ignored gateway has the identity of the
live gateway the report has the conflict conditions there; and with a
parent-reference index out of range there is no report. -/
theorem reload_failure_not_reported :
    ((buildStatuses exampleConditions (exampleGraph false exampleRoutes) reloadFailed).bind
      (fun report => report.GatewayStatuses ⟨"default", "gateway"⟩)).map
        (fun st => (st.Conditions, (st.ListenerStatuses "http").isSome)) =
      some ([exampleCondition "Accepted" "False" "UnsupportedValue"], false) ∧
    ((buildStatuses exampleConditions
        { exampleGraph true exampleRoutes with
          IgnoredGateways := ⟨[(⟨"default", "gateway"⟩,
            { Namespace := "default", Name := "gateway", Generation := 9 })], by decide⟩ }
        reloadFailed).bind
      (fun report => report.GatewayStatuses ⟨"default", "gateway"⟩)).map
        (fun st => st.Conditions) =
      some [exampleCondition "Accepted" "False" "GatewayConflict",
            exampleCondition "Programmed" "False" "GatewayConflict"] ∧
    (buildStatuses exampleConditions
      (exampleGraph true ⟨[(⟨"default", "tea"⟩, idxOutOfRangeRoute)], by decide⟩)
      reloadFailed).isNone = true := by
  decide

/-- C15, amended. For a graph whose parent-reference indices are in range and a
reload outcome with an error, `buildStatuses` returns a report that has the
reload-failure condition in the conditions of every parent status of every
route, whatever the gateway is; and when the graph has a live gateway that is
valid and whose identity is not among the ignored gateways, the report has the
reload-failure condition in the conditions of that gateway and of every one of
its listeners. -/
theorem reload_failure_fan_out (conditions : ConditionsPackage) (g : graph.Graph)
    (res : nginxReloadResult)
    (hidx : graphIdxInRange g = true) (herr : res.error.isSome = true) :
    ∃ report, buildStatuses conditions g res = some report ∧
      (∀ e ∈ g.Routes.entries, ∃ st, report.HTTPRouteStatuses e.1 = some st ∧
        st.ParentStatuses.length = e.2.ParentRefs.length ∧
        ∀ ps ∈ st.ParentStatuses,
          conditions.NewRouteGatewayNotProgrammed conditions.RouteMessageFailedNginxReload ∈
            ps.Conditions) ∧
      (∀ gateway, g.Gateway = some gateway → gateway.Valid = true →
        gateway.Source.ObjectKey ∉ g.IgnoredGateways.keys →
        ∃ gst, report.GatewayStatuses gateway.Source.ObjectKey = some gst ∧
          conditions.NewGatewayNotProgrammedInvalid conditions.GatewayMessageFailedNginxReload ∈
            gst.Conditions ∧
          ∀ e ∈ gateway.Listeners.entries, ∃ ls, gst.ListenerStatuses e.1 = some ls ∧
            conditions.NewListenerNotProgrammedInvalid
              conditions.ListenerMessageFailedNginxReload ∈ ls.Conditions) := by
  obtain ⟨report, hreport⟩ : ∃ report, buildStatuses conditions g res = some report :=
    ⟨_, buildStatuses_eq conditions g res hidx⟩
  have hfields := buildStatuses_fields conditions g res report hreport
  refine ⟨report, hreport, ?_, ?_⟩
  · intro e he
    refine ⟨_, routeStatus_of_mem conditions g res report hreport hidx e he, by simp, ?_⟩
    intro ps hps
    obtain ⟨ref, _, rfl⟩ := List.mem_map.mp hps
    simp only [parentStatus, reloadRoute, herr, if_true]
    exact last_mem_DeduplicateConditions _ _
  · intro gateway hgw hvalid hkey
    refine ⟨buildGatewayStatus conditions gateway res, ?_, ?_, ?_⟩
    · rw [hfields.2.1, hgw]
      exact buildGatewayStatuses_not_ignored conditions gateway _ res hkey
    · rw [buildGatewayStatus_of_valid conditions gateway res hvalid]
      simp only [reloadGateway, herr, if_true]
      exact last_mem_DeduplicateConditions _ _
    · intro e he
      refine ⟨_, buildGatewayStatus_listener conditions gateway res hvalid e he, ?_⟩
      simp only [listenerStatus, reloadListener, herr, if_true]
      exact last_mem_DeduplicateConditions _ _

/-- C15 amended, at the example graph after a failed reload: with the gateway
that is not valid, the route `cafe` has the reload-failure condition in each of
its two parent statuses; with the valid gateway, so has the gateway. -/
theorem reload_failure_fan_out_witness :
    (∃ report st,
      buildStatuses exampleConditions (exampleGraph false exampleRoutes) reloadFailed =
        some report ∧
      report.HTTPRouteStatuses ⟨"default", "cafe"⟩ = some st ∧
      st.ParentStatuses.length = 2 ∧
      ∀ ps ∈ st.ParentStatuses,
        exampleConditions.NewRouteGatewayNotProgrammed "reload failed" ∈ ps.Conditions) ∧
    (∃ report gst,
      buildStatuses exampleConditions (exampleGraph true exampleRoutes) reloadFailed =
        some report ∧
      report.GatewayStatuses ⟨"default", "gateway"⟩ = some gst ∧
      exampleConditions.NewGatewayNotProgrammedInvalid "reload failed" ∈ gst.Conditions) := by
  constructor
  · obtain ⟨report, hreport, hroutes, _⟩ :=
      reload_failure_fan_out exampleConditions (exampleGraph false exampleRoutes) reloadFailed
        (by decide) rfl
    obtain ⟨st, hst, hlen, hmem⟩ := hroutes (⟨"default", "cafe"⟩, exampleRoute) (by decide)
    exact ⟨report, st, hreport, hst, hlen, hmem⟩
  · obtain ⟨report, hreport, _, hgateway⟩ :=
      reload_failure_fan_out exampleConditions (exampleGraph true exampleRoutes) reloadFailed
        (by decide) rfl
    obtain ⟨gst, hgst, hmem, _⟩ := hgateway (exampleGateway true) rfl rfl (by decide)
    exact ⟨report, gst, hreport, hgst, hmem⟩

end Static
